import Mathlib

/-!
Batch document upload page (`src/frontend/pages/batch-upload.js`).

A shallow embedding of the React component `BatchUploadPage`; the handler of
the search page and the alert parsing of the dashboard and of the document
pages follow it, in namespaces of their own.

* The component state (`files`, `dept`, `uploading`, `progress`, `completed`,
  `total`) and the environment it talks to (the `localStorage` token, the
  requests posted with `axios.post`, `alert`, `router.push`, `console.error`)
  are one record, `PageState`.
* Every statement of a handler that changes something is one atomic step, a
  function `PageState → PageState`; a handler is the list of its steps in
  program order.  `runSteps` applies them one after the other (the state the
  handler leaves behind) and `traceSteps` lists the state after each step.
  React applies together the updates issued in one synchronous segment of a
  handler, so the states a render can show are among the listed ones.
* The result of the awaited `axios.post` of loop iteration `i` is `outcome i`:
  the promise either resolves, or rejects with an error `e` that the `catch`
  block inspects.
-/

namespace BatchUpload

/-! ## Data model -/

/-- The four values the `status` field of a progress record takes. -/
inductive Status where
  | pending
  | processing
  | success
  | error
  deriving DecidableEq, Repr

/-- A progress record, as built in `handleFileSelect` (lines 25-30). -/
structure ProgressItem where
  id : Nat
  name : String
  status : Status
  message : String
  deriving DecidableEq, Repr

/-- A browser `File`: the page reads `name` and `size`. -/
structure File where
  name : String
  size : Nat
  deriving DecidableEq, Repr

/-- The part of `e.response` the catch block reads: `e.response?.data?.detail`,
`none` when `data` or `detail` is missing. -/
structure ErrorResponse where
  detail : Option String
  deriving DecidableEq, Repr

/-- The error a rejected `axios.post` promise carries: `response` is present
when the service answered with an error status and absent on a transport
error; `message` is `e.message`. -/
structure AxiosError where
  response : Option ErrorResponse
  message : String
  deriving DecidableEq, Repr

/-- What awaiting `axios.post` gives: the promise resolves with the response
payload, or rejects with an error. -/
inductive Outcome where
  | resolved (payload : String)
  | rejected (e : AxiosError)
  deriving DecidableEq, Repr

/-- One `axios.post` call (lines 57-66): the form data and the headers. -/
structure Request where
  url : String
  file : File
  department : String
  contentType : String
  authorization : String
  deriving DecidableEq, Repr

/-- The component state (lines 7-12) together with the environment the
handlers read and write. -/
structure PageState where
  files : List File
  dept : String
  uploading : Bool
  progress : List ProgressItem
  completed : Nat
  total : Nat
  token : Option String
  requests : List Request
  alerts : List String
  pushes : List String
  consoleErrors : List String
  deriving DecidableEq, Repr

/-- The state of a freshly mounted page (the `useState` initial values) for a
given stored token. -/
def initialState (token : Option String) : PageState :=
  { files := [], dept := "Engineering", uploading := false, progress := [],
    completed := 0, total := 0, token := token, requests := [], alerts := [],
    pushes := [], consoleErrors := [] }

/-! ## JavaScript helpers -/

/-- The test `!token` on the value of `localStorage.getItem`: `null` and the
empty string are falsy. -/
def isFalsy : Option String → Bool
  | none => true
  | some t => t == ""

/-- The expression `a || b` on an optional string `a`: `b` when `a` is
undefined or empty. -/
def jsOr (a : Option String) (b : String) : String :=
  match a with
  | none => b
  | some d => if d = "" then b else d

/-- The expression `e.response?.data?.detail`. -/
def AxiosError.detail (e : AxiosError) : Option String :=
  match e.response with
  | none => none
  | some r => r.detail

/-! ## Atomic steps -/

/-- The type of an atomic step. -/
abbrev Step := PageState → PageState

def setFiles (v : List File) : Step := fun s => { s with files := v }

def setUploading (v : Bool) : Step := fun s => { s with uploading := v }

def setTotal (v : Nat) : Step := fun s => { s with total := v }

/-- The functional form `setCompleted(prev => ...)`; `setCompleted(0)` is the
constant updater. -/
def setCompleted (f : Nat → Nat) : Step := fun s => { s with completed := f s.completed }

/-- The functional form `setProgress(prev => ...)`. -/
def setProgress (f : List ProgressItem → List ProgressItem) : Step :=
  fun s => { s with progress := f s.progress }

def alert (msg : String) : Step := fun s => { s with alerts := s.alerts ++ [msg] }

def routerPush (path : String) : Step := fun s => { s with pushes := s.pushes ++ [path] }

def consoleError (msg : String) : Step :=
  fun s => { s with consoleErrors := s.consoleErrors ++ [msg] }

/-- Issuing `axios.post`: the request is appended to the log of requests. -/
def post (r : Request) : Step := fun s => { s with requests := s.requests ++ [r] }

/-- Applies the steps in order. -/
def runSteps (steps : List Step) (s : PageState) : PageState :=
  steps.foldl (fun st f => f st) s

/-- The state after each step, in order. -/
def traceSteps : List Step → PageState → List PageState
  | [], _ => []
  | f :: fs, s => f s :: traceSteps fs (f s)

/-! ## `handleFileSelect` (lines 22-31) -/

/-- The records `selectedFiles.map((file, index) => ...)`. -/
def initProgress (selectedFiles : List File) : List ProgressItem :=
  selectedFiles.mapIdx fun index file =>
    { id := index, name := file.name, status := Status.pending, message := "" }

def handleFileSelectSteps (selectedFiles : List File) : List Step :=
  [setFiles selectedFiles, setProgress (fun _ => initProgress selectedFiles)]

def handleFileSelect (selectedFiles : List File) (s : PageState) : PageState :=
  runSteps (handleFileSelectSteps selectedFiles) s

/-! ## `uploadBatch` (lines 33-84) -/

/-- The updater `prev => prev.map((p, idx) => idx === i ? ... : p)` that
sets the status and the message of the record at index `i`. -/
def markItem (i : Nat) (status : Status) (message : String)
    (prev : List ProgressItem) : List ProgressItem :=
  prev.mapIdx fun idx p => if idx = i then { p with status := status, message := message } else p

/-- The request built in lines 57-66. -/
def mkRequest (dept token : String) (file : File) : Request :=
  { url := "http://localhost:8000/documents/upload", file := file, department := dept,
    contentType := "multipart/form-data", authorization := "Bearer " ++ token }

/-- The message the catch block writes (line 78). -/
def failureMessage (e : AxiosError) : String :=
  "Failed: " ++ jsOr e.detail e.message

/-- The steps after the `await` of iteration `i`: the rest of the `try` block
when the promise resolved, the `catch` block when it rejected. -/
def afterAwait (i : Nat) (file : File) : Outcome → List Step
  | .resolved _ =>
      [setProgress (markItem i .success "Processed successfully"),
       setCompleted (fun prev => prev + 1)]
  | .rejected e =>
      [consoleError ("Upload error for " ++ file.name),
       setProgress (markItem i .error (failureMessage e))]

/-- One iteration of the loop (lines 49-80) for index `i`; `files`, `dept` and
`token` are the values the running invocation holds. -/
def loopBody (files : List File) (dept token : String) (outcome : Nat → Outcome)
    (i : Nat) : List Step :=
  match files[i]? with
  | none => []
  | some file =>
      setProgress (markItem i .processing "Uploading...")
        :: post (mkRequest dept token file)
        :: afterAwait i file (outcome i)

/-- The first `k` iterations of `for (let i = 0; i < files.length; i++)`. -/
def loopSteps (files : List File) (dept token : String) (outcome : Nat → Outcome)
    (k : Nat) : List Step :=
  (List.range k).flatMap (loopBody files dept token outcome)

/-- The steps of one invocation of `uploadBatch` from state `s`, whose
closure holds `s.files` and `s.dept`; past the test `!token` the token is a
non-empty string. -/
def uploadBatchSteps (outcome : Nat → Outcome) (s : PageState) : List Step :=
  if s.files.length = 0 then [alert "Please select files"]
  else
    [setUploading true, setTotal s.files.length, setCompleted (fun _ => 0)] ++
      (if isFalsy s.token then [alert "Please login first", routerPush "/"]
       else
         loopSteps s.files s.dept (s.token.getD "") outcome s.files.length ++
           [setUploading false])

/-- The state `uploadBatch` leaves behind. -/
def uploadBatch (outcome : Nat → Outcome) (s : PageState) : PageState :=
  runSteps (uploadBatchSteps outcome s) s

/-- The states an invocation of `uploadBatch` goes through: the state it is
invoked in, then the state after each step. -/
def uploadBatchTrace (outcome : Nat → Outcome) (s : PageState) : List PageState :=
  s :: traceSteps (uploadBatchSteps outcome s) s

/-! ## Observations -/

def Status.isTerminal : Status → Bool
  | .success => true
  | .error => true
  | _ => false

/-- The status of the record at index `idx`, if there is one. -/
def statusAt (s : PageState) (idx : Nat) : Option Status :=
  (s.progress[idx]?).map (fun p => p.status)

def Outcome.isAccepted : Outcome → Bool
  | .resolved _ => true
  | .rejected _ => false

/-- The number of accepted submissions among the first `n`. -/
def acceptedCount (outcome : Nat → Outcome) (n : Nat) : Nat :=
  (List.range n).countP (fun i => (outcome i).isAccepted)

/-- The number of records whose status is `success`. -/
def successCount (progress : List ProgressItem) : Nat :=
  progress.countP (fun p => p.status = Status.success)

/-! ## Vocabulary of the results -/

/-- The fields a loop step leaves alone. -/
def Frame (t u : PageState) : Prop :=
  u.files = t.files ∧ u.dept = t.dept ∧ u.uploading = t.uploading ∧ u.total = t.total ∧
    u.token = t.token ∧ u.alerts = t.alerts ∧ u.pushes = t.pushes ∧
    u.progress.length = t.progress.length

/-- The status iteration `i` ends with. -/
def finalStatus : Outcome → Status
  | .resolved _ => .success
  | .rejected _ => .error

/-- The message iteration `i` ends with. -/
def finalMessage : Outcome → String
  | .resolved _ => "Processed successfully"
  | .rejected e => failureMessage e

/-- The progress list once the first `k` iterations are over. -/
def progressAfter (outcome : Nat → Outcome) (k : Nat) (p : List ProgressItem) :
    List ProgressItem :=
  p.mapIdx fun idx q =>
    if idx < k then
      { q with status := finalStatus (outcome idx), message := finalMessage (outcome idx) }
    else q

/-- The progress list while iteration `k` awaits its response. -/
def progressDuring (outcome : Nat → Outcome) (k : Nat) (p : List ProgressItem) :
    List ProgressItem :=
  markItem k .processing "Uploading..." (progressAfter outcome k p)

/-- The state in which the loop of a run starts. -/
def loopEntry (s : PageState) : PageState :=
  setCompleted (fun _ => 0) (setTotal s.files.length (setUploading true s))

/-- A step that leaves the progress list alone. -/
def KeepsProgress (f : Step) : Prop := ∀ t, (f t).progress = t.progress

/-- The moves the progress list makes during the loop, `P` being the list the
loop started with. -/
def LoopMove (outcome : Nat → Outcome) (P a b : List ProgressItem) : Prop :=
  b = a ∨ ∃ k, (a = progressAfter outcome k P ∧ b = progressDuring outcome k P) ∨
    (a = progressDuring outcome k P ∧ b = progressAfter outcome (k + 1) P)

/-- The shapes the progress list takes during the loop. -/
def LoopShape (outcome : Nat → Outcome) (P a : List ProgressItem) : Prop :=
  ∃ k, a = progressAfter outcome k P ∨ a = progressDuring outcome k P

/-- The status of the record at index `idx` of a progress list. -/
def statusOf (p : List ProgressItem) (idx : Nat) : Option Status :=
  (p[idx]?).map (fun q => q.status)

/-- All records pending. -/
def Fresh (p : List ProgressItem) : Prop := ∀ q ∈ p, q.status = Status.pending

/-- The order invariant with cursor `c`: the records before `c` are terminal,
the record at `c` is pending or processing, the records after `c` are
pending. -/
def Ordered (p : List ProgressItem) (c : Nat) : Prop :=
  ∀ idx st, statusOf p idx = some st →
    (idx < c → st.isTerminal = true) ∧
      (idx = c → st = Status.pending ∨ st = Status.processing) ∧
      (c < idx → st = Status.pending)

/-- The moves of one record between two successive states: it stays as it
is, or goes from pending to processing, or from processing to success or
error. -/
def StatusStep (a b : Status) : Prop :=
  a = b ∨ (a = Status.pending ∧ b = Status.processing) ∨
    (a = Status.processing ∧ (b = Status.success ∨ b = Status.error))

instance (a b : Status) : Decidable (StatusStep a b) := by
  unfold StatusStep; infer_instance

/-! ## Sample inputs -/

def fileA : File := { name := "a.pdf", size := 1024 }

def fileB : File := { name := "b.pdf", size := 2048 }

def fileC : File := { name := "c.pdf", size := 4096 }

/-- Three selected files on a page whose stored token is `tok`. -/
def threeFiles : PageState :=
  handleFileSelect [fileA, fileB, fileC] (initialState (some "tok"))

/-- The second submission fails with a transport error, the others are
accepted. -/
def secondFails : Nat → Outcome := fun i =>
  if i = 1 then .rejected { response := none, message := "Network Error" }
  else .resolved "ok"

/-- Every submission is accepted. -/
def allAccepted : Nat → Outcome := fun _ => .resolved "ok"

/-! ## The record tracker in the words of the specification -/

/-- The failures the specification names for the Item State Tracker. -/
inductive TrackerError where
  | invalidInput
  | invalidTransition
  deriving DecidableEq, Repr

/-- The tracker operation of the specification that creates the records, in
the specification's words: one pending record per file, in input order, and
failure with `InvalidInput` when the file list is empty.  It is compared with
what `handleFileSelect` stores. -/
def specCreateRecords (files : List File) : Except TrackerError (List ProgressItem) :=
  if files = [] then .error .invalidInput else .ok (initProgress files)

/-- The tracker operation of the specification that updates one record, in
the specification's words: it sets the status and the message, and fails with
`InvalidTransition` when the record is terminal and the new status is not.
It is compared with the updater `markItem` of the page. -/
def specTransition (item : ProgressItem) (newStatus : Status) (message : String) :
    Except TrackerError ProgressItem :=
  if item.status.isTerminal && !newStatus.isTerminal then .error .invalidTransition
  else .ok { item with status := newStatus, message := message }

/-! ## The page as a transition system -/

/-- The condition under which the completion section is rendered (line 192). -/
def completionShown (s : PageState) : Bool :=
  decide (0 < s.completed) && decide (s.completed = s.total) && !s.uploading

/-- The handler of the button `Upload More Documents` (lines 202-207). -/
def resetSteps : List Step :=
  [setFiles [], setProgress (fun _ => []), setCompleted (fun _ => 0), setTotal 0]

def resetPage (s : PageState) : PageState := runSteps resetSteps s

/-- The states the page reaches from a fresh mount.  The file input is
disabled while `uploading` (line 108), the upload button is disabled while
`uploading` or when no file is selected (line 145), and the reset button is
rendered with the completion section only (line 192).  Every state an
invocation of `uploadBatch` goes through is reachable; a file selection and a
reset are one step each, their updates being issued in one synchronous
segment and applied together. -/
inductive Reachable : PageState → Prop where
  | mount (token : Option String) : Reachable (initialState token)
  | select (s : PageState) (selectedFiles : List File) :
      Reachable s → s.uploading = false → Reachable (handleFileSelect selectedFiles s)
  | upload (s : PageState) (outcome : Nat → Outcome) (t : PageState) :
      Reachable s → s.uploading = false → s.files ≠ [] →
      t ∈ uploadBatchTrace outcome s → Reachable t
  | reset (s : PageState) :
      Reachable s → completionShown s = true → Reachable (resetPage s)

/-! ## Further observations -/

/-- The message of the record at index `idx`, if there is one. -/
def messageAt (s : PageState) (idx : Nat) : Option String :=
  (s.progress[idx]?).map (fun p => p.message)

/-- The immutable part of a record. -/
def idName (p : ProgressItem) : Nat × String := (p.id, p.name)

/-- The number of records that have left `pending`. -/
def nonPendingCount (progress : List ProgressItem) : Nat :=
  progress.countP (fun p => p.status ≠ Status.pending)

/-- The requests an invocation from `s` added to the log, given the log
after it. -/
def newRequests (s after : PageState) : List Request :=
  after.requests.drop s.requests.length

/-! ## Further sample inputs -/

/-- Two selected files on a page whose stored token is `tok`. -/
def twoFiles : PageState :=
  handleFileSelect [fileA, fileB] (initialState (some "tok"))

/-- The first submission is accepted, the service rejects the second with
the detail `unsupported format`. -/
def secondRejected : Nat → Outcome := fun i =>
  if i = 1 then
    .rejected { response := some { detail := some "unsupported format" },
                message := "Request failed with status code 400" }
  else .resolved "ok"

/-- An error response whose detail is the empty string. -/
def emptyDetailError : AxiosError :=
  { response := some { detail := some "" }, message := "Request failed with status code 400" }

/-- Both submissions are accepted, with different response payloads. -/
def twoPayloads : Nat → Outcome := fun i =>
  if i = 0 then .resolved "category: HR" else .resolved "category: Safety"

/-- A record of a file that was processed. -/
def doneRecord : ProgressItem :=
  { id := 0, name := "a.pdf", status := Status.success, message := "Processed successfully" }

/-- The state a first run over three files leaves, its second submission
having failed. -/
def afterFirstRun : PageState := uploadBatch secondFails threeFiles

/-- A new selection made after a run over three files that were all
accepted. -/
def staleSelection : PageState :=
  handleFileSelect [fileA] (uploadBatch allAccepted threeFiles)

/-! ## Reading the progress -/

/-- What the render reads of the run: `completed` and `total` (lines 148, 192
and 196) and the progress records (lines 165-186). -/
structure Snapshot where
  completed : Nat
  total : Nat
  items : List ProgressItem
  deriving DecidableEq, Repr

def snapshot (s : PageState) : Snapshot :=
  { completed := s.completed, total := s.total, items := s.progress }

/-- One read by the render: it calls no setter, so it gives the snapshot and
the state as it was. -/
def readProgress (s : PageState) : Snapshot × PageState := (snapshot s, s)

/-! ## The step that issues a submission -/

/-- Between the successive states `t` and `u` of an invocation from a state
with `base` requests in the log: if a request was issued, it is the request
for the file at some index `i`, it is request number `i` of the invocation,
and the record at index `i` was processing with the message `Uploading...`
in `t`. -/
def SubmissionStep (files : List File) (dept token : String) (base : Nat)
    (t u : PageState) : Prop :=
  u.requests ≠ t.requests →
    ∃ i file, files[i]? = some file ∧ t.requests.length = base + i ∧
      u.requests = t.requests ++ [mkRequest dept token file] ∧
      ∀ q, t.progress[i]? = some q →
        q.status = Status.processing ∧ q.message = "Uploading..."

end BatchUpload

/-! # Search page (`src/frontend/pages/search.js`) -/

namespace SearchPage

open BatchUpload (AxiosError isFalsy jsOr)

/-- One entry of `res.data.results`; the handler stores the entries as they
come. -/
structure SearchResult where
  document_id : Nat
  filename : String
  deriving DecidableEq, Repr

/-- The body `res.data` of a successful response; a field is `none` when it is
missing or null. -/
structure SearchData where
  results : Option (List SearchResult)
  total_results : Option Nat
  deriving DecidableEq, Repr

/-- What awaiting `axios.get` gives: the promise resolves with a response whose
`data` may be null, or rejects with an error. -/
inductive GetOutcome where
  | resolved (data : Option SearchData)
  | rejected (e : AxiosError)
  deriving DecidableEq, Repr

/-- One `axios.get` call (lines 28-30): the URL is `path` followed by `?q=` and
the percent-encoded `query`. -/
structure GetRequest where
  path : String
  query : String
  authorization : String
  deriving DecidableEq, Repr

/-- The component state (lines 7-10) together with the environment. -/
structure SearchState where
  query : String
  results : List SearchResult
  loading : Bool
  totalResults : Nat
  token : Option String
  requests : List GetRequest
  alerts : List String
  pushes : List String
  consoleErrors : List String
  deriving DecidableEq, Repr

/-- The state of a freshly mounted search page. -/
def initialState (token : Option String) : SearchState :=
  { query := "", results := [], loading := false, totalResults := 0, token := token,
    requests := [], alerts := [], pushes := [], consoleErrors := [] }

/-- The characters `String.prototype.trim` removes: the ECMAScript white space
and line terminator code points. -/
def isJsWhitespace (c : Char) : Bool :=
  c.val = 0x09 || c.val = 0x0A || c.val = 0x0B || c.val = 0x0C || c.val = 0x0D ||
    c.val = 0x20 || c.val = 0xA0 || c.val = 0x1680 ||
    (0x2000 ≤ c.val && c.val ≤ 0x200A) || c.val = 0x2028 || c.val = 0x2029 ||
    c.val = 0x202F || c.val = 0x205F || c.val = 0x3000 || c.val = 0xFEFF

/-- The method `trim`. -/
def jsTrim (q : String) : String :=
  String.mk ((q.data.dropWhile isJsWhitespace).reverse.dropWhile isJsWhitespace).reverse

/-- The property `length` of a string: its number of UTF-16 code units. -/
def jsLength (q : String) : Nat :=
  (q.data.map fun c => if c.val < 0x10000 then 1 else 2).sum

/-- The test `!query || query.trim().length < 3` of line 14. -/
def queryTooShort (query : String) : Bool :=
  query == "" || decide (jsLength (jsTrim query) < 3)

/-- The type of an atomic step of the search page. -/
abbrev Step := SearchState → SearchState

def setResults (v : List SearchResult) : Step := fun s => { s with results := v }

def setTotalResults (v : Nat) : Step := fun s => { s with totalResults := v }

def setLoading (v : Bool) : Step := fun s => { s with loading := v }

def alert (msg : String) : Step := fun s => { s with alerts := s.alerts ++ [msg] }

def routerPush (path : String) : Step := fun s => { s with pushes := s.pushes ++ [path] }

def consoleError (msg : String) : Step :=
  fun s => { s with consoleErrors := s.consoleErrors ++ [msg] }

/-- Issuing `axios.get`. -/
def get (r : GetRequest) : Step := fun s => { s with requests := s.requests ++ [r] }

def runSteps (steps : List Step) (s : SearchState) : SearchState :=
  steps.foldl (fun st f => f st) s

/-- The request of lines 28-30. -/
def mkGet (query token : String) : GetRequest :=
  { path := "http://localhost:8000/search", query := query,
    authorization := "Bearer " ++ token }

/-- The `TypeError` thrown by `res.data.results` when `res.data` is null. -/
def nullDataError : AxiosError :=
  { response := none, message := "Cannot read properties of null (reading 'results')" }

/-- The catch block (lines 34-37). -/
def catchSteps (e : AxiosError) : List Step :=
  [consoleError "Search error:", alert ("Search failed: " ++ jsOr e.detail e.message)]

/-- The steps after the `await` (lines 32-37). -/
def afterGet : GetOutcome → List Step
  | .resolved (some data) =>
      [setResults (data.results.getD []), setTotalResults (data.total_results.getD 0)]
  | .resolved none => catchSteps nullDataError
  | .rejected e => catchSteps e

/-- The steps of one invocation of `handleSearch` (lines 12-39) from state `s`.
The `return` of line 25 leaves the function from inside the `try` block, so
the `setLoading(false)` of line 38 is not reached on that path. -/
def handleSearchSteps (outcome : GetOutcome) (s : SearchState) : List Step :=
  if queryTooShort s.query then [alert "Please enter at least 3 characters"]
  else
    setLoading true ::
      (if isFalsy s.token then [alert "Please login first", routerPush "/"]
       else
         get (mkGet s.query (s.token.getD "")) :: (afterGet outcome ++ [setLoading false]))

/-- The state `handleSearch` leaves behind. -/
def handleSearch (outcome : GetOutcome) (s : SearchState) : SearchState :=
  runSteps (handleSearchSteps outcome s) s

/-- A page on which a query was typed. -/
def typed (query : String) (token : Option String) : SearchState :=
  { initialState token with query := query }

/-- A successful response with one result. -/
def oneResult : GetOutcome :=
  .resolved (some { results := some [{ document_id := 7, filename := "safety.pdf" }],
                    total_results := some 1 })

/-- A failed request. -/
def networkError : GetOutcome :=
  .rejected { response := none, message := "Network Error" }

end SearchPage

/-! # Alert parsing (`dashboard.js`, `document/[id].js`, `upload.js`) -/

namespace Alerts

open BatchUpload (jsOr)

/-- One alert of a document. -/
structure AlertEntry where
  label : String
  deriving DecidableEq, Repr

/-- The values `JSON.parse` returns, as far as the pages look at them: `null`,
an array, or another value (number, boolean, string, object) with the value
of its property `length` when that is a number. -/
inductive JsonValue where
  | null
  | list (items : List AlertEntry)
  | other (length : Option Nat)
  deriving DecidableEq, Repr

/-- The errors a page can throw here. -/
inductive JsError where
  | syntaxError
  | typeError
  deriving DecidableEq, Repr

/-- The built-in `JSON.parse`, a parameter of the pages: `none` when it throws
a `SyntaxError`. -/
abbrev Parser := String → Option JsonValue

/-- The expression `JSON.parse(field || '[]')`. -/
def parseField (parse : Parser) (field : Option String) : Except JsError JsonValue :=
  match parse (jsOr field "[]") with
  | none => .error .syntaxError
  | some v => .ok v

/-- The expression `alerts.length`: it throws on `null`. -/
def lengthOf : JsonValue → Except JsError (Option Nat)
  | .null => .error .typeError
  | .list items => .ok (some items.length)
  | .other n => .ok n

/-- The expression `alerts.length > 0`; `undefined > 0` is false. -/
def lengthPositive (v : JsonValue) : Except JsError Bool :=
  match lengthOf v with
  | .error e => .error e
  | .ok (some n) => .ok (decide (0 < n))
  | .ok none => .ok false

/-- The expression `alerts.map(...)`: it throws unless `alerts` is an array. -/
def mapAlerts : JsonValue → Except JsError (List AlertEntry)
  | .list items => .ok items
  | _ => .error .typeError

/-- The function `parseAlerts` of `document/[id].js` (lines 35-41) and of
`upload.js` (lines 41-47). -/
def parseAlerts (parse : Parser) (alertsStr : Option String) : JsonValue :=
  match parseField parse alertsStr with
  | .ok v => v
  | .error _ => .list []

/-- A document as the dashboard reads it; `semantic_alerts` is `none` when
the field is missing or null. -/
structure Document where
  id : Nat
  filename : String
  semantic_alerts : Option String
  is_misfiled : Bool
  deriving DecidableEq, Repr

/-- The callback of `docs.filter` in lines 41-48, with its try and catch. -/
def hasAlerts (parse : Parser) (d : Document) : Bool :=
  match parseField parse d.semantic_alerts with
  | .error _ => false
  | .ok alerts =>
      match lengthPositive alerts with
      | .error _ => false
      | .ok b => b

/-- The list `alertDocs` (lines 41-48). -/
def alertDocs (parse : Parser) (docs : List Document) : List Document :=
  docs.filter (hasAlerts parse)

/-- `List.mapM` for `Except`, by structural recursion: a callback that throws
stops the `map`. -/
def mapExcept {α β : Type} (f : α → Except JsError β) : List α → Except JsError (List β)
  | [] => .ok []
  | a :: as =>
      match f a with
      | .error e => .error e
      | .ok b =>
          match mapExcept f as with
          | .error e => .error e
          | .ok bs => .ok (b :: bs)

/-- One entry of the alerts section (lines 87-106): the parse of line 88 and
the `alerts.map` of line 94. -/
def alertItem (parse : Parser) (doc : Document) : Except JsError (String × List AlertEntry) :=
  match parseField parse doc.semantic_alerts with
  | .error e => .error e
  | .ok alerts =>
      match mapAlerts alerts with
      | .error e => .error e
      | .ok items => .ok (doc.filename, items)

/-- The alerts section (lines 83-109), rendered when `alertDocs` is not
empty. -/
def alertsSection (parse : Parser) (docs : List Document) :
    Except JsError (List (String × List AlertEntry)) :=
  if (alertDocs parse docs).length > 0 then mapExcept (alertItem parse) (alertDocs parse docs)
  else .ok []

/-- One row of the document table. -/
structure Row where
  filename : String
  misfiled : Bool
  alertCount : Option Nat
  ok : Bool
  deriving DecidableEq, Repr

/-- One row of the table (lines 138-168): the parse of line 139, without a
try, then `alerts.length > 0` and `alerts.length === 0`. -/
def tableRow (parse : Parser) (doc : Document) : Except JsError Row :=
  match parseField parse doc.semantic_alerts with
  | .error e => .error e
  | .ok alerts =>
      match lengthOf alerts with
      | .error e => .error e
      | .ok n =>
          .ok { filename := doc.filename, misfiled := doc.is_misfiled,
                alertCount := n.filter (fun k => decide (0 < k)),
                ok := !doc.is_misfiled && decide (n = some 0) }

/-- The part of the dashboard state the view depends on. -/
structure DashboardState where
  docs : List Document
  loading : Bool
  deriving DecidableEq, Repr

/-- The document table (lines 115-173): nothing while loading or when there
is no document. -/
def documentTable (parse : Parser) (s : DashboardState) : Except JsError (List Row) :=
  if s.loading then .ok []
  else if s.docs.length = 0 then .ok []
  else mapExcept (tableRow parse) s.docs

/-- What the render of the dashboard computes from the documents. -/
structure View where
  total : Nat
  activeAlerts : Nat
  misfiled : Nat
  alertItems : List (String × List AlertEntry)
  rows : List Row
  deriving DecidableEq, Repr

/-- The render of the dashboard (lines 41-177); an exception thrown while
rendering makes it fail. -/
def renderDashboard (parse : Parser) (s : DashboardState) : Except JsError View :=
  match alertsSection parse s.docs with
  | .error e => .error e
  | .ok items =>
      match documentTable parse s with
      | .error e => .error e
      | .ok rows =>
          .ok { total := s.docs.length, activeAlerts := (alertDocs parse s.docs).length,
                misfiled := (s.docs.filter fun d => d.is_misfiled).length,
                alertItems := items, rows := rows }

/-- `JSON.parse` on the texts of the examples: an empty array, an array of one
alert, `null`; the other texts of the examples are not JSON. -/
def sampleParse : Parser := fun text =>
  if text = "[]" then some (.list [])
  else if text = "[\x7b\"label\": \"Safety Violation\", \"score\": 0.9\x7d]" then
    some (.list [{ label := "Safety Violation" }])
  else if text = "null" then some .null
  else none

def docWithAlert : Document :=
  { id := 1, filename := "incident.pdf",
    semantic_alerts := some "[\x7b\"label\": \"Safety Violation\", \"score\": 0.9\x7d]",
    is_misfiled := false }

def docWithoutField : Document :=
  { id := 2, filename := "memo.pdf", semantic_alerts := none, is_misfiled := false }

/-- A document whose `semantic_alerts` is not well-formed JSON. -/
def docMalformed : Document :=
  { id := 3, filename := "scan.pdf", semantic_alerts := some "[oops", is_misfiled := true }

/-- A document whose `semantic_alerts` is the JSON text `null`. -/
def docNull : Document :=
  { id := 4, filename := "blank.pdf", semantic_alerts := some "null", is_misfiled := false }

/-- The test `alerts.length > 0` the document page makes on the result of
`parseAlerts(doc.semantic_alerts)` (`document/[id].js`, lines 59, 76 and 120;
`upload.js`, line 140), outside any try. -/
def alertsBadge (parse : Parser) (doc : Document) : Except JsError Bool :=
  lengthPositive (parseAlerts parse doc.semantic_alerts)

end Alerts

namespace BatchUpload

/-! ## Running and tracing lists of steps -/

theorem runSteps_nil (s : PageState) : runSteps [] s = s := rfl

theorem runSteps_cons (f : Step) (fs : List Step) (s : PageState) :
    runSteps (f :: fs) s = runSteps fs (f s) := rfl

theorem runSteps_append (a b : List Step) (s : PageState) :
    runSteps (a ++ b) s = runSteps b (runSteps a s) := by
  simp [runSteps, List.foldl_append]

theorem traceSteps_append (a b : List Step) (s : PageState) :
    traceSteps (a ++ b) s = traceSteps a s ++ traceSteps b (runSteps a s) := by
  induction a generalizing s with
  | nil => simp [traceSteps, runSteps]
  | cons f fs ih => simp [traceSteps, runSteps_cons, ih]

theorem traceSteps_length (a : List Step) (s : PageState) :
    (traceSteps a s).length = a.length := by
  induction a generalizing s with
  | nil => rfl
  | cons f fs ih => simp [traceSteps, ih]

/-- The last state of a trace is the state the steps leave behind. -/
theorem getLast_traceSteps (a : List Step) (s : PageState) :
    (s :: traceSteps a s).getLast (List.cons_ne_nil _ _) = runSteps a s := by
  induction a generalizing s with
  | nil => simp [traceSteps, runSteps]
  | cons f fs ih =>
    simp only [traceSteps, runSteps_cons]
    rw [List.getLast_cons (List.cons_ne_nil _ _)]
    exact ih (f s)

/-- A property every step preserves holds all along the trace. -/
theorem forall_traceSteps (P : PageState → Prop) (a : List Step)
    (hstep : ∀ f ∈ a, ∀ t, P t → P (f t)) (s : PageState) (hs : P s) :
    (∀ t ∈ traceSteps a s, P t) ∧ P (runSteps a s) := by
  induction a generalizing s with
  | nil => simp [traceSteps, runSteps, hs]
  | cons f fs ih =>
    have hf : P (f s) := hstep f (List.mem_cons_self _ _) s hs
    have := ih (fun g hg => hstep g (List.mem_cons_of_mem _ hg)) (f s) hf
    simp only [traceSteps, runSteps_cons, List.mem_cons]
    refine ⟨?_, this.2⟩
    rintro t (rfl | ht)
    · exact hf
    · exact this.1 t ht

/-! ## The loop -/

theorem loopSteps_zero (files : List File) (dept token : String) (outcome : Nat → Outcome) :
    loopSteps files dept token outcome 0 = [] := rfl

theorem loopSteps_succ (files : List File) (dept token : String) (outcome : Nat → Outcome)
    (k : Nat) :
    loopSteps files dept token outcome (k + 1) =
      loopSteps files dept token outcome k ++ loopBody files dept token outcome k := by
  simp [loopSteps, List.range_succ]

theorem loopBody_eq (files : List File) (dept token : String) (outcome : Nat → Outcome)
    (k : Nat) (hk : k < files.length) :
    loopBody files dept token outcome k =
      setProgress (markItem k .processing "Uploading...")
        :: post (mkRequest dept token files[k])
        :: afterAwait k files[k] (outcome k) := by
  simp [loopBody, List.getElem?_eq_getElem hk]

theorem markItem_length (i : Nat) (st : Status) (m : String) (p : List ProgressItem) :
    (markItem i st m p).length = p.length := by
  simp [markItem]

theorem loopBody_frame (files : List File) (dept token : String) (outcome : Nat → Outcome)
    (i : Nat) : ∀ f ∈ loopBody files dept token outcome i, ∀ t, Frame t (f t) := by
  intro f hf t
  unfold loopBody at hf
  split at hf
  · simp at hf
  · rcases List.mem_cons.1 hf with rfl | hf
    · simp [Frame, setProgress, markItem_length]
    rcases List.mem_cons.1 hf with rfl | hf
    · simp [Frame, post]
    cases ho : outcome i <;> rw [ho] at hf <;> simp only [afterAwait, List.mem_cons,
      List.mem_singleton, List.not_mem_nil, or_false] at hf <;> rcases hf with rfl | rfl <;>
      simp [Frame, setProgress, setCompleted, consoleError, markItem_length]

theorem loopSteps_frame (files : List File) (dept token : String) (outcome : Nat → Outcome)
    (k : Nat) : ∀ f ∈ loopSteps files dept token outcome k, ∀ t, Frame t (f t) := by
  intro f hf t
  obtain ⟨i, -, hi⟩ := List.mem_flatMap.1 hf
  exact loopBody_frame files dept token outcome i f hi t

/-! ## The state after `k` iterations, in closed form -/

theorem progressAfter_zero (outcome : Nat → Outcome) (p : List ProgressItem) :
    progressAfter outcome 0 p = p := by
  apply List.ext_getElem?
  intro n
  simp [progressAfter]

theorem progressAfter_succ (outcome : Nat → Outcome) (k : Nat) (p : List ProgressItem) :
    markItem k (finalStatus (outcome k)) (finalMessage (outcome k))
        (progressDuring outcome k p) = progressAfter outcome (k + 1) p := by
  apply List.ext_getElem?
  intro n
  simp only [progressDuring, markItem, progressAfter, List.getElem?_mapIdx, Option.map_map]
  congr 1
  funext q
  by_cases h1 : n = k
  · subst h1; simp
  · by_cases h2 : n < k
    · have : n < k + 1 := by omega
      simp [h1, h2, this]
    · have : ¬ n < k + 1 := by omega
      simp [h1, h2, this]

theorem acceptedCount_succ (outcome : Nat → Outcome) (k : Nat) :
    acceptedCount outcome (k + 1) =
      acceptedCount outcome k + (if (outcome k).isAccepted then 1 else 0) := by
  simp [acceptedCount, List.range_succ, List.countP_append, List.countP_cons]

/-- The effect of the steps that follow the await of iteration `k`. -/
theorem runSteps_afterAwait (k : Nat) (file : File) (o : Outcome) (t : PageState) :
    (runSteps (afterAwait k file o) t).progress =
        markItem k (finalStatus o) (finalMessage o) t.progress ∧
      (runSteps (afterAwait k file o) t).completed =
        t.completed + (if o.isAccepted then 1 else 0) ∧
      (runSteps (afterAwait k file o) t).requests = t.requests := by
  cases o <;>
    simp [afterAwait, runSteps, setProgress, setCompleted, consoleError, finalStatus,
      finalMessage, Outcome.isAccepted]

/-- The progress list, the counter and the request log after the first `k`
iterations of the loop. -/
theorem loop_state (files : List File) (dept token : String) (outcome : Nat → Outcome)
    (s : PageState) (k : Nat) (hk : k ≤ files.length) :
    (runSteps (loopSteps files dept token outcome k) s).progress =
        progressAfter outcome k s.progress ∧
      (runSteps (loopSteps files dept token outcome k) s).completed =
        s.completed + acceptedCount outcome k ∧
      (runSteps (loopSteps files dept token outcome k) s).requests =
        s.requests ++ (files.take k).map (mkRequest dept token) := by
  induction k with
  | zero => simp [loopSteps_zero, runSteps_nil, progressAfter_zero, acceptedCount]
  | succ k ih =>
    have hk1 : k < files.length := by omega
    obtain ⟨ihp, ihc, ihr⟩ := ih (by omega)
    rw [loopSteps_succ, runSteps_append, loopBody_eq files dept token outcome k hk1,
      runSteps_cons, runSteps_cons]
    obtain ⟨hp, hc, hr⟩ := runSteps_afterAwait k files[k] (outcome k)
      (post (mkRequest dept token files[k])
        (setProgress (markItem k .processing "Uploading...")
          (runSteps (loopSteps files dept token outcome k) s)))
    rw [hp, hc, hr]
    refine ⟨?_, ?_, ?_⟩
    · simp only [post, setProgress, ihp]
      exact progressAfter_succ outcome k s.progress
    · simp only [post, setProgress, ihc, acceptedCount_succ]
      omega
    · simp only [post, setProgress, ihr, List.take_succ, List.getElem?_eq_getElem hk1,
        List.map_append, List.append_assoc]
      simp

/-! ## The whole of `uploadBatch` -/

theorem Frame.refl (t : PageState) : Frame t t := by simp [Frame]

theorem Frame.trans {t u v : PageState} (h1 : Frame t u) (h2 : Frame u v) : Frame t v := by
  obtain ⟨a1, a2, a3, a4, a5, a6, a7, a8⟩ := h1
  obtain ⟨b1, b2, b3, b4, b5, b6, b7, b8⟩ := h2
  exact ⟨b1.trans a1, b2.trans a2, b3.trans a3, b4.trans a4, b5.trans a5, b6.trans a6,
    b7.trans a7, b8.trans a8⟩

/-- The loop leaves the framed fields alone, all along its trace. -/
theorem loop_frame (files : List File) (dept token : String) (outcome : Nat → Outcome)
    (k : Nat) (s : PageState) :
    (∀ t ∈ traceSteps (loopSteps files dept token outcome k) s, Frame s t) ∧
      Frame s (runSteps (loopSteps files dept token outcome k) s) :=
  forall_traceSteps (fun t => Frame s t) _
    (fun f hf t ht => ht.trans (loopSteps_frame files dept token outcome k f hf t)) s
    (Frame.refl s)

/-- The steps of a run that passes both guards. -/
theorem uploadBatchSteps_run (outcome : Nat → Outcome) (s : PageState)
    (hne : s.files ≠ []) (htok : isFalsy s.token = false) :
    uploadBatchSteps outcome s =
      [setUploading true, setTotal s.files.length, setCompleted (fun _ => 0)] ++
        (loopSteps s.files s.dept (s.token.getD "") outcome s.files.length ++
          [setUploading false]) := by
  have : s.files.length ≠ 0 := by simpa using hne
  simp [uploadBatchSteps, this, htok]

/-- The state a run that passes both guards leaves behind is the state the
loop leaves behind, with `uploading` reset. -/
theorem uploadBatch_run (outcome : Nat → Outcome) (s : PageState)
    (hne : s.files ≠ []) (htok : isFalsy s.token = false) :
    uploadBatch outcome s =
      setUploading false
        (runSteps (loopSteps s.files s.dept (s.token.getD "") outcome s.files.length)
          (loopEntry s)) := by
  rw [uploadBatch, uploadBatchSteps_run outcome s hne htok, runSteps_append, runSteps_append]
  rfl

/-- The trace of a run that passes both guards. -/
theorem traceSteps_run (outcome : Nat → Outcome) (s : PageState)
    (hne : s.files ≠ []) (htok : isFalsy s.token = false) :
    traceSteps (uploadBatchSteps outcome s) s =
      ([setUploading true s, setTotal s.files.length (setUploading true s), loopEntry s] ++
        traceSteps (loopSteps s.files s.dept (s.token.getD "") outcome s.files.length)
          (loopEntry s)) ++ [uploadBatch outcome s] := by
  rw [uploadBatch_run outcome s hne htok, uploadBatchSteps_run outcome s hne htok,
    traceSteps_append, traceSteps_append]
  simp [traceSteps, runSteps, loopEntry]

/-- The final state of a run that passes both guards, field by field. -/
theorem uploadBatch_state (outcome : Nat → Outcome) (s : PageState)
    (hne : s.files ≠ []) (htok : isFalsy s.token = false) :
    (uploadBatch outcome s).progress = progressAfter outcome s.files.length s.progress ∧
      (uploadBatch outcome s).completed = acceptedCount outcome s.files.length ∧
      (uploadBatch outcome s).requests =
        s.requests ++ s.files.map (mkRequest s.dept (s.token.getD "")) ∧
      (uploadBatch outcome s).uploading = false ∧
      (uploadBatch outcome s).total = s.files.length ∧
      (uploadBatch outcome s).files = s.files ∧
      (uploadBatch outcome s).alerts = s.alerts ∧
      (uploadBatch outcome s).pushes = s.pushes := by
  obtain ⟨hp, hc, hr⟩ := loop_state s.files s.dept (s.token.getD "") outcome (loopEntry s)
    s.files.length (le_refl _)
  obtain ⟨f1, -, -, f4, -, f6, f7, -⟩ :=
    (loop_frame s.files s.dept (s.token.getD "") outcome s.files.length (loopEntry s)).2
  rw [uploadBatch_run outcome s hne htok]
  simp only [setUploading]
  refine ⟨?_, ?_, ?_, trivial, ?_, ?_, ?_, ?_⟩
  · rw [hp]; rfl
  · rw [hc]; simp [loopEntry, setCompleted]
  · rw [hr]; simp [loopEntry, setCompleted, setTotal, setUploading]
  · rw [f4]; rfl
  · rw [f1]; rfl
  · rw [f6]; rfl
  · rw [f7]; rfl

/-- The record at index `idx` once the first `k` iterations are over. -/
theorem getElem?_progressAfter (outcome : Nat → Outcome) (k : Nat) (p : List ProgressItem)
    (idx : Nat) :
    (progressAfter outcome k p)[idx]? =
      (p[idx]?).map fun q =>
        if idx < k then
          { q with status := finalStatus (outcome idx), message := finalMessage (outcome idx) }
        else q := by
  simp [progressAfter]

theorem finalStatus_isTerminal (o : Outcome) : (finalStatus o).isTerminal = true := by
  cases o <;> rfl

theorem finalStatus_eq_success (o : Outcome) : finalStatus o = .success ↔ o.isAccepted = true := by
  cases o <;> simp [finalStatus, Outcome.isAccepted]

theorem finalStatus_eq_error (o : Outcome) : finalStatus o = .error ↔ o.isAccepted = false := by
  cases o <;> simp [finalStatus, Outcome.isAccepted]

/-- The statuses once all `p.length` iterations are over. -/
theorem map_status_progressAfter (outcome : Nat → Outcome) (p : List ProgressItem) :
    (progressAfter outcome p.length p).map (fun q => q.status) =
      (List.range p.length).map (fun i => finalStatus (outcome i)) := by
  apply List.ext_getElem?
  intro n
  simp only [List.getElem?_map, getElem?_progressAfter, Option.map_map]
  by_cases h : n < p.length
  · simp [List.getElem?_eq_getElem h, List.getElem?_range h, h]
  · have h1 : p.length ≤ n := by omega
    simp [List.getElem?_eq_none h1, List.getElem?_eq_none (l := List.range p.length) (by simpa using h1)]

theorem successCount_progressAfter (outcome : Nat → Outcome) (p : List ProgressItem) :
    successCount (progressAfter outcome p.length p) = acceptedCount outcome p.length := by
  have h := map_status_progressAfter outcome p
  have h2 : successCount (progressAfter outcome p.length p) =
      ((progressAfter outcome p.length p).map (fun q => q.status)).countP
        (fun st => decide (st = Status.success)) := by
    simp [successCount, List.countP_map, Function.comp_def]
  rw [h2, h, List.countP_map, acceptedCount]
  congr 1
  funext i
  have key : ∀ o : Outcome, decide (finalStatus o = Status.success) = o.isAccepted := by
    intro o; cases o <;> rfl
  simpa using key (outcome i)

/-! ## Successive states of a run -/

theorem chain_traceSteps_append (R : PageState → PageState → Prop) (a b : List Step)
    (s : PageState) :
    List.Chain R s (traceSteps (a ++ b) s) ↔
      List.Chain R s (traceSteps a s) ∧
        List.Chain R (runSteps a s) (traceSteps b (runSteps a s)) := by
  induction a generalizing s with
  | nil => simp [traceSteps, runSteps]
  | cons f fs ih =>
    rw [List.cons_append]
    simp only [traceSteps, List.chain_cons, runSteps_cons]
    rw [ih (f s)]
    exact and_assoc.symm

theorem chain_traceSteps_of_forall (R : PageState → PageState → Prop) (a : List Step)
    (h : ∀ f ∈ a, ∀ t, R t (f t)) (s : PageState) : List.Chain R s (traceSteps a s) := by
  induction a generalizing s with
  | nil => simp [traceSteps]
  | cons f fs ih =>
    simp only [traceSteps, List.chain_cons]
    exact ⟨h f (List.mem_cons_self _ _) s, ih (fun g hg => h g (List.mem_cons_of_mem _ hg)) (f s)⟩

theorem runSteps_keepsProgress (a : List Step) (h : ∀ f ∈ a, KeepsProgress f) (s : PageState) :
    (∀ t ∈ traceSteps a s, t.progress = s.progress) ∧ (runSteps a s).progress = s.progress :=
  forall_traceSteps (fun t => t.progress = s.progress) a
    (fun f hf t ht => (h f hf t).trans ht) s rfl

/-- Every invocation is some steps that leave the progress list alone, then
some iterations of the loop (none when a guard fails), then again steps that
leave the progress list alone. -/
theorem uploadBatchSteps_shape (outcome : Nat → Outcome) (s : PageState) :
    ∃ (A B : List Step) (k : Nat), k ≤ s.files.length ∧
      uploadBatchSteps outcome s =
        A ++ (loopSteps s.files s.dept (s.token.getD "") outcome k ++ B) ∧
      (∀ f ∈ A, KeepsProgress f) ∧ (∀ f ∈ B, KeepsProgress f) := by
  by_cases h0 : s.files.length = 0
  · refine ⟨[alert "Please select files"], [], 0, Nat.zero_le _, ?_, ?_, ?_⟩
    · simp [uploadBatchSteps, h0, loopSteps_zero]
    · intro f hf t
      simp only [List.mem_singleton] at hf
      subst hf; rfl
    · simp
  · by_cases htok : isFalsy s.token = true
    · refine ⟨[setUploading true, setTotal s.files.length, setCompleted (fun _ => 0)],
        [alert "Please login first", routerPush "/"], 0, Nat.zero_le _, ?_, ?_, ?_⟩
      · simp [uploadBatchSteps, h0, htok, loopSteps_zero]
      · intro f hf t
        simp only [List.mem_cons, List.mem_singleton, List.not_mem_nil, or_false] at hf
        rcases hf with rfl | rfl | rfl <;> rfl
      · intro f hf t
        simp only [List.mem_cons, List.mem_singleton, List.not_mem_nil, or_false] at hf
        rcases hf with rfl | rfl <;> rfl
    · refine ⟨[setUploading true, setTotal s.files.length, setCompleted (fun _ => 0)],
        [setUploading false], s.files.length, le_refl _, ?_, ?_, ?_⟩
      · simp [uploadBatchSteps, h0, htok]
      · intro f hf t
        simp only [List.mem_cons, List.mem_singleton, List.not_mem_nil, or_false] at hf
        rcases hf with rfl | rfl | rfl <;> rfl
      · intro f hf t
        simp only [List.mem_singleton] at hf
        subst hf; rfl

/-- One iteration, from a state in which the first `k` iterations are over. -/
theorem loopBody_moves (files : List File) (dept token : String) (outcome : Nat → Outcome)
    (P : List ProgressItem) (k : Nat) (hk : k < files.length) (t : PageState)
    (ht : t.progress = progressAfter outcome k P) :
    List.Chain (fun a b => LoopMove outcome P a.progress b.progress) t
        (traceSteps (loopBody files dept token outcome k) t) ∧
      ∀ u ∈ traceSteps (loopBody files dept token outcome k) t,
        LoopShape outcome P u.progress := by
  have hsucc := progressAfter_succ outcome k P
  rw [loopBody_eq files dept token outcome k hk]
  cases ho : outcome k with
  | resolved payload =>
    rw [ho] at hsucc
    simp only [finalStatus, finalMessage, progressDuring] at hsucc
    simp only [afterAwait, traceSteps, List.chain_cons, List.Chain.nil, and_true,
      List.mem_cons, List.mem_singleton, List.not_mem_nil, or_false, forall_eq_or_imp,
      forall_eq, setProgress, post, setCompleted, ht, hsucc]
    refine ⟨⟨?_, ?_, ?_, ?_⟩, ?_, ?_, ?_, ?_⟩
    · exact Or.inr ⟨k, Or.inl ⟨rfl, rfl⟩⟩
    · exact Or.inl rfl
    · exact Or.inr ⟨k, Or.inr ⟨rfl, rfl⟩⟩
    · exact Or.inl rfl
    · exact ⟨k, Or.inr rfl⟩
    · exact ⟨k, Or.inr rfl⟩
    · exact ⟨k + 1, Or.inl rfl⟩
    · exact ⟨k + 1, Or.inl rfl⟩
  | rejected e =>
    rw [ho] at hsucc
    simp only [finalStatus, finalMessage, progressDuring] at hsucc
    simp only [afterAwait, traceSteps, List.chain_cons, List.Chain.nil, and_true,
      List.mem_cons, List.mem_singleton, List.not_mem_nil, or_false, forall_eq_or_imp,
      forall_eq, setProgress, post, consoleError, ht, hsucc]
    refine ⟨⟨?_, ?_, ?_, ?_⟩, ?_, ?_, ?_, ?_⟩
    · exact Or.inr ⟨k, Or.inl ⟨rfl, rfl⟩⟩
    · exact Or.inl rfl
    · exact Or.inl rfl
    · exact Or.inr ⟨k, Or.inr ⟨rfl, rfl⟩⟩
    · exact ⟨k, Or.inr rfl⟩
    · exact ⟨k, Or.inr rfl⟩
    · exact ⟨k, Or.inr rfl⟩
    · exact ⟨k + 1, Or.inl rfl⟩

/-- The first `k` iterations, from the state the loop starts in. -/
theorem loopSteps_moves (files : List File) (dept token : String) (outcome : Nat → Outcome)
    (s : PageState) (k : Nat) (hk : k ≤ files.length) :
    List.Chain (fun a b => LoopMove outcome s.progress a.progress b.progress) s
        (traceSteps (loopSteps files dept token outcome k) s) ∧
      ∀ u ∈ traceSteps (loopSteps files dept token outcome k) s,
        LoopShape outcome s.progress u.progress := by
  induction k with
  | zero => simp [loopSteps_zero, traceSteps]
  | succ k ih =>
    obtain ⟨ihc, ihm⟩ := ih (by omega)
    obtain ⟨hc, hm⟩ := loopBody_moves files dept token outcome s.progress k (by omega)
      (runSteps (loopSteps files dept token outcome k) s)
      (loop_state files dept token outcome s k (by omega)).1
    rw [loopSteps_succ, traceSteps_append]
    refine ⟨?_, ?_⟩
    · rw [← traceSteps_append, chain_traceSteps_append]
      exact ⟨ihc, hc⟩
    · intro u hu
      rcases List.mem_append.1 hu with hu | hu
      · exact ihm u hu
      · exact hm u hu

/-- The moves and the shapes of the progress list along a whole invocation. -/
theorem uploadBatchTrace_moves (outcome : Nat → Outcome) (s : PageState) :
    List.Chain' (fun a b => LoopMove outcome s.progress a.progress b.progress)
        (uploadBatchTrace outcome s) ∧
      ∀ u ∈ uploadBatchTrace outcome s, LoopShape outcome s.progress u.progress := by
  obtain ⟨A, B, k, hk, hsteps, hA, hB⟩ := uploadBatchSteps_shape outcome s
  obtain ⟨hAt, hAr⟩ := runSteps_keepsProgress A hA s
  obtain ⟨hLc, hLm⟩ := loopSteps_moves s.files s.dept (s.token.getD "") outcome
    (runSteps A s) k hk
  have hLr := (loop_state s.files s.dept (s.token.getD "") outcome (runSteps A s) k hk).1
  rw [hAr] at hLc hLm hLr
  obtain ⟨hBt, -⟩ := runSteps_keepsProgress B hB
    (runSteps (loopSteps s.files s.dept (s.token.getD "") outcome k) (runSteps A s))
  rw [hLr] at hBt
  unfold uploadBatchTrace
  rw [hsteps]
  refine ⟨?_, ?_⟩
  · show List.Chain _ s _
    rw [chain_traceSteps_append, chain_traceSteps_append]
    refine ⟨?_, hLc, ?_⟩
    · exact chain_traceSteps_of_forall _ A (fun f hf t => Or.inl (hA f hf t)) s
    · exact chain_traceSteps_of_forall _ B (fun f hf t => Or.inl (hB f hf t)) _
  · intro u hu
    rw [traceSteps_append, traceSteps_append] at hu
    simp only [List.mem_cons, List.mem_append] at hu
    rcases hu with rfl | hu | hu | hu
    · exact ⟨0, Or.inl (progressAfter_zero outcome _).symm⟩
    · exact ⟨0, Or.inl ((hAt u hu).trans (progressAfter_zero outcome _).symm)⟩
    · exact hLm u hu
    · exact ⟨k, Or.inl (hBt u hu)⟩

theorem getElem?_progressDuring (outcome : Nat → Outcome) (k : Nat) (p : List ProgressItem)
    (idx : Nat) :
    (progressDuring outcome k p)[idx]? =
      (p[idx]?).map fun q =>
        if idx = k then
          { q with status := Status.processing, message := "Uploading..." }
        else if idx < k then
          { q with status := finalStatus (outcome idx), message := finalMessage (outcome idx) }
        else q := by
  simp only [progressDuring, markItem, progressAfter, List.getElem?_mapIdx, Option.map_map]
  congr 1
  funext q
  by_cases h1 : idx = k
  · subst h1; simp
  · by_cases h2 : idx < k <;> simp [h1, h2]

theorem progressAfter_length (outcome : Nat → Outcome) (k : Nat) (p : List ProgressItem) :
    (progressAfter outcome k p).length = p.length := by
  simp [progressAfter]

theorem progressDuring_length (outcome : Nat → Outcome) (k : Nat) (p : List ProgressItem) :
    (progressDuring outcome k p).length = p.length := by
  simp [progressDuring, markItem, progressAfter]

theorem statusAt_eq (s : PageState) (idx : Nat) : statusAt s idx = statusOf s.progress idx := rfl

theorem statusOf_progressAfter (outcome : Nat → Outcome) (k : Nat) (P : List ProgressItem)
    (hP : Fresh P) (idx : Nat) (st : Status)
    (h : statusOf (progressAfter outcome k P) idx = some st) :
    idx < P.length ∧ st = if idx < k then finalStatus (outcome idx) else Status.pending := by
  simp only [statusOf, getElem?_progressAfter, Option.map_map, Option.map_eq_some',
    Function.comp_apply] at h
  obtain ⟨q, hq, hst⟩ := h
  obtain ⟨hlt, rfl⟩ := List.getElem?_eq_some_iff.1 hq
  refine ⟨hlt, ?_⟩
  have hpend := hP _ (List.getElem_mem hlt)
  by_cases h1 : idx < k
  · simp only [h1, if_true] at hst ⊢; exact hst.symm
  · simp only [h1, if_false] at hst ⊢; exact hst.symm.trans hpend

theorem statusOf_progressDuring (outcome : Nat → Outcome) (k : Nat) (P : List ProgressItem)
    (hP : Fresh P) (idx : Nat) (st : Status)
    (h : statusOf (progressDuring outcome k P) idx = some st) :
    idx < P.length ∧
      st = if idx = k then Status.processing
           else if idx < k then finalStatus (outcome idx) else Status.pending := by
  simp only [statusOf, getElem?_progressDuring, Option.map_map, Option.map_eq_some',
    Function.comp_apply] at h
  obtain ⟨q, hq, hst⟩ := h
  obtain ⟨hlt, rfl⟩ := List.getElem?_eq_some_iff.1 hq
  refine ⟨hlt, ?_⟩
  have hpend := hP _ (List.getElem_mem hlt)
  by_cases h0 : idx = k
  · simp only [h0, if_true] at hst ⊢; exact hst.symm
  · by_cases h1 : idx < k
    · simp only [h0, h1, if_true, if_false] at hst ⊢; exact hst.symm
    · simp only [h0, h1, if_false] at hst ⊢; exact hst.symm.trans hpend

theorem ordered_of_loopShape (outcome : Nat → Outcome) (P a : List ProgressItem)
    (hP : Fresh P) (h : LoopShape outcome P a) : ∃ c, Ordered a c := by
  obtain ⟨k, rfl | rfl⟩ := h
  · refine ⟨k, fun idx st hst => ?_⟩
    obtain ⟨-, rfl⟩ := statusOf_progressAfter outcome k P hP idx st hst
    refine ⟨fun h => ?_, fun h => ?_, fun h => ?_⟩
    · simp [h, finalStatus_isTerminal]
    · subst h; simp
    · have : ¬ idx < k := by omega
      simp [this]
  · refine ⟨k, fun idx st hst => ?_⟩
    obtain ⟨-, rfl⟩ := statusOf_progressDuring outcome k P hP idx st hst
    refine ⟨fun h => ?_, fun h => ?_, fun h => ?_⟩
    · have : idx ≠ k := by omega
      simp [h, this, finalStatus_isTerminal]
    · subst h; simp
    · have h1 : ¬ idx < k := by omega
      have h2 : idx ≠ k := by omega
      simp [h1, h2]

theorem forall₂_of_getElem? {α : Type} (R : α → α → Prop) (l₁ l₂ : List α)
    (hlen : l₁.length = l₂.length)
    (h : ∀ (i : Nat) (a b : α), l₁[i]? = some a → l₂[i]? = some b → R a b) :
    List.Forall₂ R l₁ l₂ := by
  rw [List.forall₂_iff_get]
  refine ⟨hlen, fun i h₁ h₂ => ?_⟩
  exact h i _ _ (List.getElem?_eq_getElem h₁) (List.getElem?_eq_getElem h₂)

theorem finalStatus_cases (o : Outcome) :
    finalStatus o = Status.success ∨ finalStatus o = Status.error := by
  cases o <;> simp [finalStatus]

theorem forall₂_of_loopMove (outcome : Nat → Outcome) (P a b : List ProgressItem)
    (hP : Fresh P) (h : LoopMove outcome P a b) :
    List.Forall₂ (fun x y => StatusStep x.status y.status) a b := by
  rcases h with rfl | ⟨k, ⟨rfl, rfl⟩ | ⟨rfl, rfl⟩⟩
  · exact List.forall₂_same.2 (fun x _ => Or.inl rfl)
  · apply forall₂_of_getElem?
    · rw [progressAfter_length, progressDuring_length]
    · intro i x y hx hy
      have h1 := statusOf_progressAfter outcome k P hP i x.status (by simp [statusOf, hx])
      have h2 := statusOf_progressDuring outcome k P hP i y.status (by simp [statusOf, hy])
      rw [h1.2, h2.2]
      by_cases h0 : i = k
      · subst h0; simp [StatusStep]
      · by_cases h3 : i < k <;> simp [h0, h3, StatusStep]
  · apply forall₂_of_getElem?
    · rw [progressAfter_length, progressDuring_length]
    · intro i x y hx hy
      have h1 := statusOf_progressDuring outcome k P hP i x.status (by simp [statusOf, hx])
      have h2 := statusOf_progressAfter outcome (k + 1) P hP i y.status (by simp [statusOf, hy])
      rw [h1.2, h2.2]
      by_cases h0 : i = k
      · subst h0
        rcases finalStatus_cases (outcome i) with h | h <;> simp [StatusStep, h]
      · by_cases h3 : i < k
        · have : i < k + 1 := by omega
          simp [h0, h3, this, StatusStep]
        · have : ¬ i < k + 1 := by omega
          simp [h0, h3, this, StatusStep]

/-! ## Facts used by several results -/

theorem handleFileSelect_eq (selectedFiles : List File) (s : PageState) :
    handleFileSelect selectedFiles s =
      { s with files := selectedFiles, progress := initProgress selectedFiles } := rfl

theorem initProgress_length (selectedFiles : List File) :
    (initProgress selectedFiles).length = selectedFiles.length := by
  simp [initProgress]

theorem statusOf_progressAfter_lt (outcome : Nat → Outcome) (k : Nat) (P : List ProgressItem)
    (idx : Nat) (h1 : idx < k) (h2 : idx < P.length) :
    statusOf (progressAfter outcome k P) idx = some (finalStatus (outcome idx)) := by
  simp [statusOf, getElem?_progressAfter, List.getElem?_eq_getElem h2, h1]

theorem progressAfter_terminal (outcome : Nat → Outcome) (k : Nat) (P : List ProgressItem)
    (hk : P.length ≤ k) :
    ∀ p ∈ progressAfter outcome k P, p.status = Status.success ∨ p.status = Status.error := by
  intro p hp
  obtain ⟨idx, hidx⟩ := List.mem_iff_getElem?.1 hp
  rw [getElem?_progressAfter] at hidx
  simp only [Option.map_eq_some'] at hidx
  obtain ⟨q, hq, rfl⟩ := hidx
  have hlt : idx < k := lt_of_lt_of_le (List.getElem?_eq_some_iff.1 hq).1 hk
  simp only [hlt, if_true]
  exact finalStatus_cases (outcome idx)

/-- The trace of an invocation ends in the state the invocation returns. -/
theorem uploadBatchTrace_last (outcome : Nat → Outcome) (s : PageState) :
    (uploadBatchTrace outcome s).getLast? = some (uploadBatch outcome s) := by
  rw [uploadBatchTrace, List.getLast?_eq_getLast _ (List.cons_ne_nil _ _), getLast_traceSteps]
  rfl

/-! ## Results -/

/-- C1. For a non-empty selection initialised by `handleFileSelect`, a present
credential and any outcomes of the submissions, the run of `uploadBatch` ends
(its trace is finite and ends in the state the function returns), neither
guard fires (no alert, no redirect), `uploading` is false at the end, there is
one progress record per selected file and every record is in a terminal
status; `uploading` is true in every state of the run after its first step
and before its last one, so all along the loop. -/
theorem uploadBatch_reaches_terminal (outcome : Nat → Outcome) (selectedFiles : List File)
    (s0 : PageState) (hne : selectedFiles ≠ []) (htok : isFalsy s0.token = false) :
    (uploadBatchTrace outcome (handleFileSelect selectedFiles s0)).getLast? =
        some (uploadBatch outcome (handleFileSelect selectedFiles s0)) ∧
      (uploadBatch outcome (handleFileSelect selectedFiles s0)).uploading = false ∧
      (uploadBatch outcome (handleFileSelect selectedFiles s0)).alerts = s0.alerts ∧
      (uploadBatch outcome (handleFileSelect selectedFiles s0)).pushes = s0.pushes ∧
      (uploadBatch outcome (handleFileSelect selectedFiles s0)).progress.length =
        selectedFiles.length ∧
      (∀ p ∈ (uploadBatch outcome (handleFileSelect selectedFiles s0)).progress,
        p.status = Status.success ∨ p.status = Status.error) ∧
      (∀ t ∈ (traceSteps (uploadBatchSteps outcome (handleFileSelect selectedFiles s0))
            (handleFileSelect selectedFiles s0)).dropLast, t.uploading = true) := by
  have hne2 : (handleFileSelect selectedFiles s0).files ≠ [] := hne
  have htok2 : isFalsy (handleFileSelect selectedFiles s0).token = false := htok
  obtain ⟨hp, -, -, hu, -, -, ha, hpu⟩ :=
    uploadBatch_state outcome (handleFileSelect selectedFiles s0) hne2 htok2
  refine ⟨?_, hu, ha, hpu, ?_, ?_, ?_⟩
  · exact uploadBatchTrace_last outcome _
  · rw [hp, progressAfter_length]
    exact initProgress_length selectedFiles
  · rw [hp]
    apply progressAfter_terminal
    show (initProgress selectedFiles).length ≤ selectedFiles.length
    rw [initProgress_length]
  · rw [traceSteps_run outcome _ hne2 htok2, List.dropLast_concat]
    intro t ht
    rcases List.mem_append.1 ht with ht | ht
    · simp only [List.mem_cons, List.mem_singleton, List.not_mem_nil, or_false] at ht
      rcases ht with rfl | rfl | rfl <;> rfl
    · have hframe := (loop_frame _ _ _ outcome _ _).1 t ht
      rw [hframe.2.2.1]
      rfl

/-- C1, on three files whose second submission fails. -/
theorem uploadBatch_reaches_terminal_witness :
    ([fileA, fileB, fileC] ≠ [] ∧ isFalsy (initialState (some "tok")).token = false) ∧
      (uploadBatch secondFails threeFiles).uploading = false ∧
      (∀ p ∈ (uploadBatch secondFails threeFiles).progress,
        p.status = Status.success ∨ p.status = Status.error) :=
  ⟨⟨by decide, by decide⟩,
    (uploadBatch_reaches_terminal secondFails [fileA, fileB, fileC] (initialState (some "tok"))
      (by decide) (by decide)).2.1,
    (uploadBatch_reaches_terminal secondFails [fileA, fileB, fileC] (initialState (some "tok"))
      (by decide) (by decide)).2.2.2.2.2.1⟩

/-- C2. Failure isolation: in a run that reaches the loop (credential
present), with one progress record per file, the final status of the record
at index `i` is success exactly when submission `i` was accepted and error
exactly when it was not, and it is the same under any other outcomes of the
other submissions. -/
theorem failure_isolation (outcome : Nat → Outcome) (s : PageState)
    (htok : isFalsy s.token = false) (hlen : s.progress.length = s.files.length)
    (i : Nat) (hi : i < s.progress.length) :
    (statusAt (uploadBatch outcome s) i = some Status.success ↔
        (outcome i).isAccepted = true) ∧
      (statusAt (uploadBatch outcome s) i = some Status.error ↔
        (outcome i).isAccepted = false) ∧
      (∀ other : Nat → Outcome, other i = outcome i →
        statusAt (uploadBatch other s) i = statusAt (uploadBatch outcome s) i) := by
  have hne : s.files ≠ [] := by
    intro h
    rw [h] at hlen
    simp only [List.length_nil] at hlen
    omega
  have key : ∀ o : Nat → Outcome, statusAt (uploadBatch o s) i = some (finalStatus (o i)) := by
    intro o
    rw [statusAt_eq, (uploadBatch_state o s hne htok).1]
    exact statusOf_progressAfter_lt o _ _ i (hlen ▸ hi) hi
  refine ⟨?_, ?_, ?_⟩
  · rw [key, Option.some_inj]; exact finalStatus_eq_success _
  · rw [key, Option.some_inj]; exact finalStatus_eq_error _
  · intro other ho
    rw [key, key, ho]

/-- C2, on three files whose second submission fails by a transport error:
the first and the third end at success, the second at error. -/
theorem failure_isolation_witness :
    (isFalsy threeFiles.token = false ∧ threeFiles.progress.length = threeFiles.files.length) ∧
      statusAt (uploadBatch secondFails threeFiles) 0 = some Status.success ∧
      statusAt (uploadBatch secondFails threeFiles) 1 = some Status.error ∧
      statusAt (uploadBatch secondFails threeFiles) 2 = some Status.success :=
  ⟨⟨by decide, by decide⟩,
    (failure_isolation secondFails threeFiles (by decide) (by decide) 0 (by decide)).1.2
      (by decide),
    (failure_isolation secondFails threeFiles (by decide) (by decide) 1 (by decide)).2.1.2
      (by decide),
    (failure_isolation secondFails threeFiles (by decide) (by decide) 2 (by decide)).1.2
      (by decide)⟩

/-- C3. In a run that passes both guards, whatever the statuses and the
counter were before, the final `completed` is the number of accepted
submissions, which is the number of records whose final status is success;
an iteration whose submission is not accepted leaves `completed` as it
was. -/
theorem completed_counts_accepted (outcome : Nat → Outcome) (s : PageState)
    (hne : s.files ≠ []) (htok : isFalsy s.token = false)
    (hlen : s.progress.length = s.files.length) :
    (uploadBatch outcome s).completed = acceptedCount outcome s.files.length ∧
      successCount (uploadBatch outcome s).progress = (uploadBatch outcome s).completed ∧
      (∀ (k : Nat) (t : PageState), (outcome k).isAccepted = false →
        (runSteps (loopBody s.files s.dept (s.token.getD "") outcome k) t).completed =
          t.completed) := by
  obtain ⟨hp, hc, -⟩ := uploadBatch_state outcome s hne htok
  refine ⟨hc, ?_, ?_⟩
  · rw [hp, hc, ← hlen]
    exact successCount_progressAfter outcome s.progress
  · intro k t hk
    unfold loopBody
    split
    · rfl
    · rw [runSteps_cons, runSteps_cons, (runSteps_afterAwait _ _ _ _).2.1, hk]
      rfl

/-- C3, on three files whose second submission fails, started with stale
statuses and a stale counter: two accepted, two at success, counter two. -/
theorem completed_counts_accepted_witness :
    ((uploadBatch allAccepted threeFiles).files ≠ [] ∧
        isFalsy (uploadBatch allAccepted threeFiles).token = false ∧
        (uploadBatch allAccepted threeFiles).progress.length =
          (uploadBatch allAccepted threeFiles).files.length) ∧
      (uploadBatch allAccepted threeFiles).completed = 3 ∧
      (uploadBatch secondFails (uploadBatch allAccepted threeFiles)).completed = 2 ∧
      successCount (uploadBatch secondFails (uploadBatch allAccepted threeFiles)).progress = 2 :=
  ⟨⟨by decide, by decide, by decide⟩, by decide,
    (completed_counts_accepted secondFails (uploadBatch allAccepted threeFiles)
      (by decide) (by decide) (by decide)).1.trans (by decide),
    ((completed_counts_accepted secondFails (uploadBatch allAccepted threeFiles)
      (by decide) (by decide) (by decide)).2.1).trans (by decide)⟩

/-- C4. In a run that passes both guards the requests sent to the service are,
in this order, one request per file of the selection, in input order: each
file is submitted once and no submission is repeated. -/
theorem submissions_in_input_order (outcome : Nat → Outcome) (s : PageState)
    (hne : s.files ≠ []) (htok : isFalsy s.token = false) :
    (uploadBatch outcome s).requests =
        s.requests ++ s.files.map (mkRequest s.dept (s.token.getD "")) ∧
      ((uploadBatch outcome s).requests.drop s.requests.length).map (fun r => r.file) =
        s.files := by
  obtain ⟨-, -, hr, -⟩ := uploadBatch_state outcome s hne htok
  refine ⟨hr, ?_⟩
  rw [hr, List.drop_left, List.map_map]
  have : ((fun r : Request => r.file) ∘ mkRequest s.dept (s.token.getD "")) = id := by
    funext f; rfl
  rw [this, List.map_id]

/-- C4, on three files whose second submission fails: three requests, for
`a.pdf`, `b.pdf`, `c.pdf` in this order. -/
theorem submissions_in_input_order_witness :
    (threeFiles.files ≠ [] ∧ isFalsy threeFiles.token = false) ∧
      (uploadBatch secondFails threeFiles).requests.map (fun r => r.file.name) =
        ["a.pdf", "b.pdf", "c.pdf"] :=
  ⟨⟨by decide, by decide⟩,
    (congrArg (List.map (fun r => r.file.name))
      (submissions_in_input_order secondFails threeFiles (by decide) (by decide)).1).trans
      (by decide)⟩

/-- C5. Order invariant: in every state of a run started from records that are
all pending there is a cursor `c` such that the records before `c` are
terminal, the record at `c` is pending or processing and the records after
`c` are pending.  Hence at most one record is processing; if record `j` has
left pending then every record before it is terminal; if record `j` is
processing then every record after it is pending; and record `i + 1` is
processing only when record `i` is terminal. -/
theorem order_invariant (outcome : Nat → Outcome) (s : PageState)
    (hfresh : ∀ p ∈ s.progress, p.status = Status.pending)
    (t : PageState) (ht : t ∈ uploadBatchTrace outcome s) :
    (∃ c, Ordered t.progress c) ∧
      (∀ i j, statusAt t i = some Status.processing →
        statusAt t j = some Status.processing → i = j) ∧
      (∀ i j st, i < j → statusAt t j = some st → st ≠ Status.pending →
        ∃ st0, statusAt t i = some st0 ∧ st0.isTerminal = true) ∧
      (∀ j k st, j < k → statusAt t j = some Status.processing →
        statusAt t k = some st → st = Status.pending) ∧
      (∀ i, statusAt t (i + 1) = some Status.processing →
        ∃ st0, statusAt t i = some st0 ∧ st0.isTerminal = true) := by
  obtain ⟨c, hc⟩ := ordered_of_loopShape outcome s.progress t.progress hfresh
    ((uploadBatchTrace_moves outcome s).2 t ht)
  have before : ∀ i j st, i < j → statusAt t j = some st → st ≠ Status.pending →
      ∃ st0, statusAt t i = some st0 ∧ st0.isTerminal = true := by
    intro i j st hij hj hst
    have hjc : ¬ c < j := fun h => hst ((hc j st hj).2.2 h)
    have hjlen : j < t.progress.length := by
      simp only [statusAt, Option.map_eq_some'] at hj
      obtain ⟨q, hq, -⟩ := hj
      exact (List.getElem?_eq_some_iff.1 hq).1
    have hilen : i < t.progress.length := by omega
    refine ⟨t.progress[i].status, by simp [statusAt, List.getElem?_eq_getElem hilen], ?_⟩
    exact (hc i _ (by simp [statusOf, List.getElem?_eq_getElem hilen])).1 (by omega)
  have atCursor : ∀ i, statusAt t i = some Status.processing → i = c := by
    intro i hi
    obtain ⟨h1, -, h3⟩ := hc i _ hi
    by_contra hne
    rcases Nat.lt_or_gt_of_ne hne with h | h
    · exact absurd (h1 h) (by decide)
    · exact absurd (h3 h) (by decide)
  refine ⟨⟨c, hc⟩, ?_, before, ?_, ?_⟩
  · intro i j hi hj
    rw [atCursor i hi, atCursor j hj]
  · intro j k st hjk hj hk
    have := atCursor j hj
    exact (hc k st hk).2.2 (by omega)
  · intro i hi
    exact before i (i + 1) _ (Nat.lt_succ_self i) hi (by decide)

/-- C5, in the state of the run on three files in which the second file is
being submitted: the first record is terminal and the third is pending. -/
theorem order_invariant_witness :
    ((∀ p ∈ threeFiles.progress, p.status = Status.pending) ∧
        runSteps ((uploadBatchSteps secondFails threeFiles).take 9) threeFiles ∈
          uploadBatchTrace secondFails threeFiles) ∧
      statusAt (runSteps ((uploadBatchSteps secondFails threeFiles).take 9) threeFiles) 1 =
        some Status.processing ∧
      (∃ st0, statusAt (runSteps ((uploadBatchSteps secondFails threeFiles).take 9)
          threeFiles) 0 = some st0 ∧ st0.isTerminal = true) ∧
      (∀ st, statusAt (runSteps ((uploadBatchSteps secondFails threeFiles).take 9)
          threeFiles) 2 = some st → st = Status.pending) :=
  ⟨⟨by decide, by decide⟩, by decide,
    (order_invariant secondFails threeFiles (by decide) _ (by decide)).2.2.2.2 0 (by decide),
    fun st => (order_invariant secondFails threeFiles (by decide) _
      (by decide)).2.2.2.1 1 2 st (by decide) (by decide)⟩

/-- C6. When `uploadBatch` is invoked with an empty selection, or with an absent
or empty credential, no request is issued and the progress list is not
touched, in any state of the invocation and in the state it returns. -/
theorem guards_touch_nothing (outcome : Nat → Outcome) (s : PageState)
    (h : s.files = [] ∨ isFalsy s.token = true) :
    (∀ t ∈ uploadBatchTrace outcome s, t.requests = s.requests ∧ t.progress = s.progress) ∧
      (uploadBatch outcome s).requests = s.requests ∧
      (uploadBatch outcome s).progress = s.progress := by
  have hsteps : uploadBatchSteps outcome s = [alert "Please select files"] ∨
      uploadBatchSteps outcome s =
        [setUploading true, setTotal s.files.length, setCompleted (fun _ => 0),
          alert "Please login first", routerPush "/"] := by
    by_cases h0 : s.files.length = 0
    · left; simp [uploadBatchSteps, h0]
    · right
      have htok : isFalsy s.token = true := by
        rcases h with h | h
        · exact absurd (by simp [h]) h0
        · exact h
      simp [uploadBatchSteps, h0, htok]
  have hkeep : ∀ f ∈ uploadBatchSteps outcome s,
      ∀ t, (f t).requests = t.requests ∧ (f t).progress = t.progress := by
    intro f hf t
    rcases hsteps with hs | hs <;> rw [hs] at hf <;>
      simp only [List.mem_cons, List.mem_singleton, List.not_mem_nil, or_false] at hf
    · subst hf; exact ⟨rfl, rfl⟩
    · rcases hf with rfl | rfl | rfl | rfl | rfl <;> exact ⟨rfl, rfl⟩
  have hall := forall_traceSteps
    (fun t => t.requests = s.requests ∧ t.progress = s.progress) (uploadBatchSteps outcome s)
    (fun f hf t ht => ⟨(hkeep f hf t).1.trans ht.1, (hkeep f hf t).2.trans ht.2⟩) s ⟨rfl, rfl⟩
  refine ⟨?_, hall.2.1, hall.2.2⟩
  intro t ht
  rcases List.mem_cons.1 ht with rfl | ht
  · exact ⟨rfl, rfl⟩
  · exact hall.1 t ht

/-- C6, on three selected files with no stored token. -/
theorem guards_touch_nothing_witness :
    ((handleFileSelect [fileA, fileB, fileC] (initialState none)).files = [] ∨
        isFalsy (handleFileSelect [fileA, fileB, fileC] (initialState none)).token = true) ∧
      (uploadBatch allAccepted
          (handleFileSelect [fileA, fileB, fileC] (initialState none))).requests = [] ∧
      (uploadBatch allAccepted
          (handleFileSelect [fileA, fileB, fileC] (initialState none))).progress =
        initProgress [fileA, fileB, fileC] :=
  ⟨Or.inr (by decide),
    (guards_touch_nothing allAccepted
      (handleFileSelect [fileA, fileB, fileC] (initialState none)) (Or.inr (by decide))).2⟩

/-- C7, evaluated on the code.  With one selected file and no stored token the
invocation returns with `uploading` still true and `total` changed from 0 to
1; invoked after a finished run whose token has since been removed, it also
resets `completed` from 1 to 0. -/
theorem missing_credential_leaves_uploading :
    (handleFileSelect [fileA] (initialState none)).uploading = false ∧
      (handleFileSelect [fileA] (initialState none)).total = 0 ∧
      (uploadBatch allAccepted (handleFileSelect [fileA] (initialState none))).uploading = true ∧
      (uploadBatch allAccepted (handleFileSelect [fileA] (initialState none))).total = 1 ∧
      (uploadBatch allAccepted
        (handleFileSelect [fileA] (initialState (some "tok")))).completed = 1 ∧
      (uploadBatch allAccepted
        { uploadBatch allAccepted (handleFileSelect [fileA] (initialState (some "tok"))) with
          token := none }).completed = 0 ∧
      (uploadBatch allAccepted
        { uploadBatch allAccepted (handleFileSelect [fileA] (initialState (some "tok"))) with
          token := none }).uploading = true := by
  decide

/-- C8. For every list of selected files `handleFileSelect` stores the
selection and a progress list with one record per file, in input order: the
record at index `k` has id `k`, the name of the file at index `k`, status
pending and an empty message; the two lists have the same length. -/
theorem handleFileSelect_records (selectedFiles : List File) (s : PageState) :
    (handleFileSelect selectedFiles s).files = selectedFiles ∧
      (handleFileSelect selectedFiles s).progress.length = selectedFiles.length ∧
      ∀ k : Nat, (handleFileSelect selectedFiles s).progress[k]? =
        (selectedFiles[k]?).map fun file =>
          { id := k, name := file.name, status := Status.pending, message := "" } := by
  refine ⟨rfl, initProgress_length selectedFiles, fun k => ?_⟩
  rw [handleFileSelect_eq]
  simp [initProgress]

/-- C9 fails on the code: on an empty file list `handleFileSelect` stores an
empty list of records, where the specification's operation fails with
`InvalidInput`. -/
theorem empty_selection_not_refused :
    (handleFileSelect [] (initialState none)).progress = [] ∧
      specCreateRecords [] = Except.error TrackerError.invalidInput ∧
      specCreateRecords [] ≠ Except.ok (handleFileSelect [] (initialState none)).progress := by
  refine ⟨rfl, rfl, ?_⟩
  intro h
  cases h

/-- C9 as amended: initialising the records from an empty file list does not
fail, it stores an empty selection and an empty list of records. -/
theorem handleFileSelect_empty (s : PageState) :
    (handleFileSelect [] s).files = [] ∧ (handleFileSelect [] s).progress = [] :=
  ⟨rfl, rfl⟩

theorem statusStep_terminal (a b : Status) (h : StatusStep a b) (ha : a.isTerminal = true) :
    b = a := by
  rcases h with h | ⟨h, -⟩ | ⟨h, -⟩
  · exact h.symm
  · rw [h] at ha; exact absurd ha (by decide)
  · rw [h] at ha; exact absurd ha (by decide)

/-- C10. In a run started from records that are all pending, between any two
successive states every record either keeps its status or moves from pending
to processing or from processing to success or error; so a record that is
success or error keeps that status.  The run starts with every record pending
and, when it passes both guards with one record per file, its last state has
every record at success or error: every record went pending, processing,
then success or error. -/
theorem status_transitions_monotonic (outcome : Nat → Outcome) (s : PageState)
    (hfresh : ∀ p ∈ s.progress, p.status = Status.pending) :
    List.Chain'
        (fun t u => List.Forall₂
          (fun a b => StatusStep a.status b.status ∧
            (a.status.isTerminal = true → b.status = a.status))
          t.progress u.progress)
        (uploadBatchTrace outcome s) ∧
      (uploadBatchTrace outcome s).head? = some s ∧
      (uploadBatchTrace outcome s).getLast? = some (uploadBatch outcome s) ∧
      (s.files ≠ [] → isFalsy s.token = false → s.progress.length = s.files.length →
        ∀ p ∈ (uploadBatch outcome s).progress,
          p.status = Status.success ∨ p.status = Status.error) := by
  refine ⟨?_, rfl, uploadBatchTrace_last outcome s, ?_⟩
  · refine List.Chain'.imp (fun t u h => ?_) (uploadBatchTrace_moves outcome s).1
    refine List.Forall₂.imp (fun a b hab => ?_)
      (forall₂_of_loopMove outcome s.progress t.progress u.progress hfresh h)
    exact ⟨hab, statusStep_terminal _ _ hab⟩
  · intro hne htok hlen
    rw [(uploadBatch_state outcome s hne htok).1]
    exact progressAfter_terminal outcome _ _ (le_of_eq hlen)

/-- C10, on three files whose second submission fails: the successive statuses
of the second record. -/
theorem status_transitions_monotonic_witness :
    (∀ p ∈ threeFiles.progress, p.status = Status.pending) ∧
      List.Chain'
        (fun t u => List.Forall₂
          (fun a b => StatusStep a.status b.status ∧
            (a.status.isTerminal = true → b.status = a.status))
          t.progress u.progress)
        (uploadBatchTrace secondFails threeFiles) ∧
      ((uploadBatchTrace secondFails threeFiles).map (fun t => statusAt t 1)).dedup =
        [some Status.pending, some Status.processing, some Status.error] :=
  ⟨by decide, (status_transitions_monotonic secondFails threeFiles (by decide)).1, by decide⟩

/-! ## Further facts used by several results -/

/-- The record at index `idx` after a run that passes both guards. -/
theorem uploadBatch_item (outcome : Nat → Outcome) (s : PageState)
    (hne : s.files ≠ []) (htok : isFalsy s.token = false) (idx : Nat)
    (hidx : idx < s.files.length) :
    (uploadBatch outcome s).progress[idx]? =
      (s.progress[idx]?).map fun q =>
        { q with status := finalStatus (outcome idx), message := finalMessage (outcome idx) } := by
  rw [(uploadBatch_state outcome s hne htok).1, getElem?_progressAfter]
  simp [hidx]

theorem ne_nil_of_lt_length {α : Type} (l : List α) (i : Nat) (h : i < l.length) : l ≠ [] := by
  intro hl
  rw [hl] at h
  exact absurd h (Nat.not_lt_zero i)

theorem acceptedCount_all (outcome : Nat → Outcome) (n : Nat)
    (hall : ∀ i, i < n → (outcome i).isAccepted = true) : acceptedCount outcome n = n := by
  induction n with
  | zero => simp [acceptedCount]
  | succ n ih =>
    rw [acceptedCount_succ, ih (fun i hi => hall i (Nat.lt_succ_of_lt hi)),
      hall n (Nat.lt_succ_self n)]
    simp

theorem getElem?_initProgress (selectedFiles : List File) (k : Nat) :
    (initProgress selectedFiles)[k]? =
      (selectedFiles[k]?).map fun file =>
        { id := k, name := file.name, status := Status.pending, message := "" } := by
  simp [initProgress]

theorem finalMessage_accepted (o : Outcome) (h : o.isAccepted = true) :
    finalMessage o = "Processed successfully" := by
  cases o with
  | resolved payload => rfl
  | rejected e => simp [Outcome.isAccepted] at h

/-- The state a first run over three files leaves is reachable. -/
theorem reachable_afterFirstRun : Reachable afterFirstRun :=
  Reachable.upload threeFiles secondFails afterFirstRun
    (Reachable.select _ _ (Reachable.mount (some "tok")) rfl) (by decide) (by decide)
    (by decide)

/-! ## Results, continued -/

/-- C11, evaluated on the code.  After a first run over three files whose
second submission failed, the upload button is enabled again (`uploading`
false, files selected); a second run started there resets `completed` to 0
but begins with the statuses and messages the first run left: success,
error, success. -/
theorem rerun_starts_from_previous_statuses :
    Reachable afterFirstRun ∧
      afterFirstRun.uploading = false ∧ afterFirstRun.files ≠ [] ∧
      afterFirstRun.completed = 2 ∧
      loopEntry afterFirstRun ∈ uploadBatchTrace allAccepted afterFirstRun ∧
      (loopEntry afterFirstRun).completed = 0 ∧
      (loopEntry afterFirstRun).progress.map (fun p => (p.status, p.message)) =
        [(Status.success, "Processed successfully"), (Status.error, "Failed: Network Error"),
          (Status.success, "Processed successfully")] :=
  ⟨reachable_afterFirstRun, by decide, by decide, by decide, by decide, by decide, by decide⟩

/-- C12, evaluated on the code.  The state reached by selecting a file after a
run over three files that were all accepted is reachable; in it `completed`
is still 3 while the only record is pending, so `completed` exceeds the
number of records that have left pending. -/
theorem stale_counter_after_selection :
    Reachable staleSelection ∧
      staleSelection.completed = 3 ∧
      nonPendingCount staleSelection.progress = 0 ∧
      ¬ staleSelection.completed ≤ nonPendingCount staleSelection.progress :=
  ⟨Reachable.select _ [fileA]
      (Reachable.upload threeFiles allAccepted _
        (Reachable.select _ _ (Reachable.mount (some "tok")) rfl) (by decide) (by decide)
        (by decide))
      (by decide),
    by decide, by decide, by decide⟩

/-- C13. For a non-empty selection initialised by `handleFileSelect`, a present
credential and submissions that are all accepted, the run ends with
`completed` and `total` both equal to the number of files, `uploading` false,
and one record per file in input order: the record at index `k` has id `k`,
the name of the file at index `k` and status success. -/
theorem all_accepted_run (outcome : Nat → Outcome) (selectedFiles : List File)
    (s0 : PageState) (hne : selectedFiles ≠ []) (htok : isFalsy s0.token = false)
    (hall : ∀ i, i < selectedFiles.length → (outcome i).isAccepted = true) :
    (uploadBatch outcome (handleFileSelect selectedFiles s0)).completed =
        selectedFiles.length ∧
      (uploadBatch outcome (handleFileSelect selectedFiles s0)).total = selectedFiles.length ∧
      (uploadBatch outcome (handleFileSelect selectedFiles s0)).uploading = false ∧
      (uploadBatch outcome (handleFileSelect selectedFiles s0)).progress.length =
        selectedFiles.length ∧
      (∀ p ∈ (uploadBatch outcome (handleFileSelect selectedFiles s0)).progress,
        p.status = Status.success) ∧
      (∀ k : Nat, (uploadBatch outcome (handleFileSelect selectedFiles s0)).progress[k]? =
        (selectedFiles[k]?).map fun file =>
          { id := k, name := file.name, status := Status.success,
            message := "Processed successfully" }) := by
  have hne2 : (handleFileSelect selectedFiles s0).files ≠ [] := hne
  have htok2 : isFalsy (handleFileSelect selectedFiles s0).token = false := htok
  obtain ⟨hp, hc, -, hu, ht, -⟩ :=
    uploadBatch_state outcome (handleFileSelect selectedFiles s0) hne2 htok2
  have hitem : ∀ k : Nat,
      (uploadBatch outcome (handleFileSelect selectedFiles s0)).progress[k]? =
        (selectedFiles[k]?).map fun file =>
          { id := k, name := file.name, status := Status.success,
            message := "Processed successfully" } := by
    intro k
    by_cases hk : k < selectedFiles.length
    · rw [uploadBatch_item outcome _ hne2 htok2 k hk]
      show Option.map _ ((initProgress selectedFiles)[k]?) = _
      rw [getElem?_initProgress, Option.map_map,
        (finalStatus_eq_success (outcome k)).2 (hall k hk),
        finalMessage_accepted (outcome k) (hall k hk)]
      rfl
    · have h1 : selectedFiles.length ≤ k := Nat.le_of_not_lt hk
      have h2 : (uploadBatch outcome (handleFileSelect selectedFiles s0)).progress.length ≤ k := by
        rw [hp, progressAfter_length]
        show (initProgress selectedFiles).length ≤ k
        rw [initProgress_length]; exact h1
      rw [List.getElem?_eq_none h2, List.getElem?_eq_none h1]
      rfl
  refine ⟨?_, ht, hu, ?_, ?_, hitem⟩
  · rw [hc]
    exact acceptedCount_all outcome _ hall
  · rw [hp, progressAfter_length]
    exact initProgress_length selectedFiles
  · intro p hp2
    obtain ⟨k, hk⟩ := List.mem_iff_getElem?.1 hp2
    rw [hitem k] at hk
    simp only [Option.map_eq_some'] at hk
    obtain ⟨file, -, rfl⟩ := hk
    rfl

/-- C13, on the batch `a.pdf`, `b.pdf` with both submissions accepted:
`completed` 2, `total` 2, statuses success, success, names in input order. -/
theorem all_accepted_run_witness :
    ([fileA, fileB] ≠ [] ∧ isFalsy (initialState (some "tok")).token = false ∧
        ∀ i, i < [fileA, fileB].length → (allAccepted i).isAccepted = true) ∧
      (uploadBatch allAccepted twoFiles).completed = 2 ∧
      (uploadBatch allAccepted twoFiles).total = 2 ∧
      (uploadBatch allAccepted twoFiles).uploading = false ∧
      (uploadBatch allAccepted twoFiles).progress.map (fun p => (p.name, p.status)) =
        [("a.pdf", Status.success), ("b.pdf", Status.success)] :=
  ⟨⟨by decide, by decide, fun _ _ => rfl⟩,
    (all_accepted_run allAccepted [fileA, fileB] (initialState (some "tok")) (by decide)
      (by decide) (fun _ _ => rfl)).1,
    (all_accepted_run allAccepted [fileA, fileB] (initialState (some "tok")) (by decide)
      (by decide) (fun _ _ => rfl)).2.1,
    (all_accepted_run allAccepted [fileA, fileB] (initialState (some "tok")) (by decide)
      (by decide) (fun _ _ => rfl)).2.2.1,
    by decide⟩

/-- The message of the record at index `i` after a run that passes both
guards. -/
theorem messageAt_uploadBatch (outcome : Nat → Outcome) (s : PageState)
    (htok : isFalsy s.token = false) (i : Nat) (hi : i < s.files.length)
    (hp : i < s.progress.length) :
    messageAt (uploadBatch outcome s) i = some (finalMessage (outcome i)) := by
  rw [messageAt, uploadBatch_item outcome s (ne_nil_of_lt_length _ i hi) htok i hi,
    List.getElem?_eq_getElem hp]
  rfl

theorem detail_of_response (e : AxiosError) (d : Option String)
    (h : e.response = some { detail := d }) : e.detail = d := by
  simp [AxiosError.detail, h]

/-- C14. In a run that passes both guards, when the service rejects the
submission of the record at index `i` with a non-empty text `r` in the detail
field of the response body, the final message of that record is `Failed: `
followed by `r`, so it contains `r`. -/
theorem rejection_reason_in_message (outcome : Nat → Outcome) (s : PageState)
    (htok : isFalsy s.token = false) (i : Nat) (hi : i < s.files.length)
    (hp : i < s.progress.length) (e : AxiosError) (r : String)
    (ho : outcome i = Outcome.rejected e) (hr : e.response = some { detail := some r })
    (hne : r ≠ "") :
    messageAt (uploadBatch outcome s) i = some ("Failed: " ++ r) ∧
      ∃ msg, messageAt (uploadBatch outcome s) i = some msg ∧ List.IsInfix r.data msg.data := by
  have hmsg : messageAt (uploadBatch outcome s) i = some ("Failed: " ++ r) := by
    rw [messageAt_uploadBatch outcome s htok i hi hp, ho]
    simp [finalMessage, failureMessage, detail_of_response e _ hr, jsOr, hne]
  refine ⟨hmsg, "Failed: " ++ r, hmsg, ?_⟩
  rw [String.data_append]
  exact (List.suffix_append "Failed: ".data r.data).isInfix

/-- C14, on the batch `a.pdf`, `b.pdf` whose first submission is accepted and
whose second is rejected with `unsupported format`: `completed` 1, `total`
2, and the message of the second record contains the reason. -/
theorem rejection_reason_in_message_witness :
    (isFalsy twoFiles.token = false ∧ 1 < twoFiles.files.length ∧
        1 < twoFiles.progress.length ∧ "unsupported format" ≠ "") ∧
      (uploadBatch secondRejected twoFiles).completed = 1 ∧
      (uploadBatch secondRejected twoFiles).total = 2 ∧
      messageAt (uploadBatch secondRejected twoFiles) 1 =
        some ("Failed: " ++ "unsupported format") :=
  ⟨⟨by decide, by decide, by decide, by decide⟩, by decide, by decide,
    (rejection_reason_in_message secondRejected twoFiles (by decide) 1 (by decide) (by decide)
      { response := some { detail := some "unsupported format" },
        message := "Request failed with status code 400" }
      "unsupported format" rfl rfl (by decide)).1⟩

/-- C15 fails on the code: for an error response whose detail is the empty
string the message is built from the message of the error, not from the
detail of the response body. -/
theorem empty_detail_falls_back :
    emptyDetailError.response = some { detail := some "" } ∧
      failureMessage emptyDetailError = "Failed: Request failed with status code 400" ∧
      failureMessage emptyDetailError ≠ "Failed: " ++ "" ∧
      messageAt (uploadBatch (fun _ => Outcome.rejected emptyDetailError) twoFiles) 0 =
        some "Failed: Request failed with status code 400" := by
  decide

/-- C15 as amended: in a run that passes both guards, the message of a record
whose submission failed is `Failed: ` followed by the detail of the response
body when that detail is present and not empty, and by the message of the
error when the detail is absent or empty. -/
theorem failure_reason_source (outcome : Nat → Outcome) (s : PageState)
    (htok : isFalsy s.token = false) (i : Nat) (hi : i < s.files.length)
    (hp : i < s.progress.length) (e : AxiosError) (ho : outcome i = Outcome.rejected e) :
    (∀ d : String, e.detail = some d → d ≠ "" →
        messageAt (uploadBatch outcome s) i = some ("Failed: " ++ d)) ∧
      (e.detail = none ∨ e.detail = some "" →
        messageAt (uploadBatch outcome s) i = some ("Failed: " ++ e.message)) := by
  have hmsg : messageAt (uploadBatch outcome s) i = some ("Failed: " ++ jsOr e.detail e.message) := by
    rw [messageAt_uploadBatch outcome s htok i hi hp, ho]
    rfl
  refine ⟨fun d hd hne => ?_, fun h => ?_⟩
  · rw [hmsg, hd]
    simp [jsOr, hne]
  · rw [hmsg]
    rcases h with h | h <;> rw [h] <;> simp [jsOr]

/-- C15 as amended, on two files: a transport error gives the message of the
error, a rejection with a detail gives the detail. -/
theorem failure_reason_source_witness :
    (isFalsy threeFiles.token = false ∧ 1 < threeFiles.files.length ∧
        1 < threeFiles.progress.length) ∧
      messageAt (uploadBatch secondFails threeFiles) 1 = some ("Failed: " ++ "Network Error") ∧
      messageAt (uploadBatch secondRejected twoFiles) 1 =
        some ("Failed: " ++ "unsupported format") :=
  ⟨⟨by decide, by decide, by decide⟩,
    (failure_reason_source secondFails threeFiles (by decide) 1 (by decide) (by decide)
      { response := none, message := "Network Error" } rfl).2 (Or.inl rfl),
    (failure_reason_source secondRejected twoFiles (by decide) 1 (by decide) (by decide)
      { response := some { detail := some "unsupported format" },
        message := "Request failed with status code 400" } rfl).1
      "unsupported format" rfl (by decide)⟩

/-- C16 fails on the code: two accepted submissions whose responses differ end
with the same message. -/
theorem payload_not_passed_through :
    twoPayloads 0 = Outcome.resolved "category: HR" ∧
      twoPayloads 1 = Outcome.resolved "category: Safety" ∧
      messageAt (uploadBatch twoPayloads twoFiles) 0 = some "Processed successfully" ∧
      messageAt (uploadBatch twoPayloads twoFiles) 1 = some "Processed successfully" ∧
      messageAt (uploadBatch twoPayloads twoFiles) 0 =
        messageAt (uploadBatch twoPayloads twoFiles) 1 := by
  decide

/-- C16 as amended: in a run that passes both guards, the final message of a
record whose submission was accepted is the fixed text `Processed
successfully`, whatever the response. -/
theorem accepted_message_is_fixed (outcome : Nat → Outcome) (s : PageState)
    (htok : isFalsy s.token = false) (i : Nat) (hi : i < s.files.length)
    (hp : i < s.progress.length) (hacc : (outcome i).isAccepted = true) :
    messageAt (uploadBatch outcome s) i = some "Processed successfully" := by
  rw [messageAt_uploadBatch outcome s htok i hi hp, finalMessage_accepted _ hacc]

/-- C16 as amended, on the first of three files. -/
theorem accepted_message_is_fixed_witness :
    (isFalsy threeFiles.token = false ∧ 0 < threeFiles.files.length ∧
        0 < threeFiles.progress.length ∧ (secondFails 0).isAccepted = true) ∧
      messageAt (uploadBatch secondFails threeFiles) 0 = some "Processed successfully" :=
  ⟨⟨by decide, by decide, by decide, by decide⟩,
    accepted_message_is_fixed secondFails threeFiles (by decide) 0 (by decide) (by decide)
      (by decide)⟩

/-- C17 fails on the code: the updater moves a record that is at success to
processing, where the operation of the specification fails with
`InvalidTransition`; this happens in the first iteration of a second run. -/
theorem terminal_record_overwritten :
    markItem 0 Status.processing "Uploading..." [doneRecord] =
      [{ id := 0, name := "a.pdf", status := Status.processing, message := "Uploading..." }] ∧
      specTransition doneRecord Status.processing "Uploading..." =
        Except.error TrackerError.invalidTransition ∧
      statusAt afterFirstRun 0 = some Status.success ∧
      statusAt (runSteps ((uploadBatchSteps allAccepted afterFirstRun).take 4) afterFirstRun) 0 =
        some Status.processing := by
  refine ⟨by decide, rfl, by decide, by decide⟩

/-- C17 as amended: the update of a record never fails; it keeps the length
of the list and gives the record at index `i` the new status and the new
message whatever its status was, also when that status was terminal and the
new one is not. -/
theorem markItem_overwrites (i : Nat) (status : Status) (message : String)
    (prev : List ProgressItem) :
    (markItem i status message prev).length = prev.length ∧
      (markItem i status message prev)[i]? =
        (prev[i]?).map (fun q => { q with status := status, message := message }) := by
  refine ⟨markItem_length i status message prev, ?_⟩
  simp [markItem]

/-! ## Identity of the records, requests and total along a run -/

theorem map_idName_markItem (i : Nat) (st : Status) (m : String) (p : List ProgressItem) :
    (markItem i st m p).map idName = p.map idName := by
  apply List.ext_getElem?
  intro n
  simp only [markItem, List.getElem?_map, List.getElem?_mapIdx, Option.map_map]
  congr 1
  funext q
  by_cases h : n = i <;> simp [h, idName]

theorem map_idName_progressAfter (outcome : Nat → Outcome) (k : Nat) (p : List ProgressItem) :
    (progressAfter outcome k p).map idName = p.map idName := by
  apply List.ext_getElem?
  intro n
  simp only [List.getElem?_map, getElem?_progressAfter, Option.map_map]
  congr 1
  funext q
  by_cases h : n < k <;> simp [h, idName]

theorem map_idName_progressDuring (outcome : Nat → Outcome) (k : Nat) (p : List ProgressItem) :
    (progressDuring outcome k p).map idName = p.map idName := by
  rw [progressDuring, map_idName_markItem, map_idName_progressAfter]

/-- The request log after an invocation. -/
theorem uploadBatch_requests (outcome : Nat → Outcome) (s : PageState) :
    (uploadBatch outcome s).requests =
      s.requests ++
        (if s.files ≠ [] ∧ isFalsy s.token = false then
          s.files.map (mkRequest s.dept (s.token.getD ""))
        else []) := by
  by_cases hne : s.files = []
  · simp [uploadBatch, uploadBatchSteps, hne, runSteps, alert]
  · have h0 : s.files.length ≠ 0 := by simpa using hne
    by_cases htok : isFalsy s.token = true
    · simp [uploadBatch, uploadBatchSteps, h0, htok, runSteps, alert, routerPush,
        setUploading, setTotal, setCompleted]
    · have htok2 : isFalsy s.token = false := by simpa using htok
      rw [(uploadBatch_state outcome s hne htok2).2.2.1]
      simp [hne, htok2]

/-- The total, the selection and the number of records in the states of an
invocation from its second step on. -/
theorem trace_total (outcome : Nat → Outcome) (s : PageState) :
    (∀ t ∈ (uploadBatchTrace outcome s).drop 2,
        t.total = s.files.length ∧ t.files = s.files ∧
          t.progress.length = s.progress.length) ∧
      (s.files ≠ [] → uploadBatch outcome s ∈ (uploadBatchTrace outcome s).drop 2) := by
  by_cases hne : s.files = []
  · refine ⟨?_, fun h => absurd hne h⟩
    intro t ht
    simp [uploadBatchTrace, uploadBatchSteps, hne, traceSteps] at ht
  · have h0 : s.files.length ≠ 0 := by simpa using hne
    by_cases htok : isFalsy s.token = true
    · refine ⟨?_, fun _ => ?_⟩
      · intro t ht
        simp only [uploadBatchTrace, uploadBatchSteps, h0, htok, if_true, if_false,
          List.cons_append, List.nil_append, traceSteps, List.drop_succ_cons, List.drop_zero,
          List.mem_cons, List.mem_singleton, List.not_mem_nil, or_false] at ht
        rcases ht with rfl | rfl | rfl | rfl <;> exact ⟨rfl, rfl, rfl⟩
      · simp [uploadBatchTrace, uploadBatch, uploadBatchSteps, h0, htok, traceSteps, runSteps]
    · have htok2 : isFalsy s.token = false := by simpa using htok
      have htr : (uploadBatchTrace outcome s).drop 2 =
          (setTotal s.files.length (setUploading true s) :: loopEntry s ::
            traceSteps (loopSteps s.files s.dept (s.token.getD "") outcome s.files.length)
              (loopEntry s)) ++ [uploadBatch outcome s] := by
        rw [uploadBatchTrace, traceSteps_run outcome s hne htok2]
        rfl
      obtain ⟨-, -, -, -, hT, hF, -, -⟩ := uploadBatch_state outcome s hne htok2
      have hP := (uploadBatch_state outcome s hne htok2).1
      refine ⟨?_, fun _ => ?_⟩
      · intro t ht
        rw [htr] at ht
        simp only [List.mem_append, List.mem_cons, List.mem_singleton, List.not_mem_nil,
          or_false] at ht
        rcases ht with (rfl | rfl | ht) | rfl
        · exact ⟨rfl, rfl, rfl⟩
        · exact ⟨rfl, rfl, rfl⟩
        · obtain ⟨f1, -, -, f4, -, -, -, f8⟩ := (loop_frame _ _ _ outcome _ _).1 t ht
          exact ⟨f4, f1, f8⟩
        · exact ⟨hT, hF, by rw [hP, progressAfter_length]⟩
      · rw [htr]
        exact List.mem_append_right _ (List.mem_singleton_self _)

/-! ## Results on the records, the requests and the total -/

/-- C18. The update for index `i` gives the record at index `i` the new status
and the new message and leaves every other record, and the id and the name of
every record, as they were.  Hence in every state of an invocation the list
of (id, name) pairs and the number of records are those of the state it
started in; started from the records `handleFileSelect` built, the pairs are
the index and the name of each selected file. -/
theorem updates_keep_identity (outcome : Nat → Outcome) (s : PageState)
    (t : PageState) (ht : t ∈ uploadBatchTrace outcome s) :
    (∀ (i : Nat) (status : Status) (message : String) (prev : List ProgressItem) (idx : Nat),
        (markItem i status message prev)[idx]? =
          (prev[idx]?).map (fun q =>
            if idx = i then { q with status := status, message := message } else q)) ∧
      (∀ (i : Nat) (status : Status) (message : String) (prev : List ProgressItem),
        (markItem i status message prev).map idName = prev.map idName) ∧
      t.progress.map idName = s.progress.map idName ∧
      t.progress.length = s.progress.length ∧
      (s.progress = initProgress s.files →
        t.progress.map idName = s.files.mapIdx (fun k file => (k, file.name))) := by
  have hpairs : t.progress.map idName = s.progress.map idName := by
    obtain ⟨k, h | h⟩ := (uploadBatchTrace_moves outcome s).2 t ht
    · rw [h, map_idName_progressAfter]
    · rw [h, map_idName_progressDuring]
  refine ⟨?_, map_idName_markItem, hpairs, ?_, ?_⟩
  · intro i status message prev idx
    simp [markItem]
  · have := congrArg List.length hpairs
    simpa using this
  · intro hinit
    rw [hpairs, hinit]
    apply List.ext_getElem?
    intro n
    simp only [initProgress, List.getElem?_map, List.getElem?_mapIdx, Option.map_map]
    rfl

/-- C18, on three files whose second submission fails: after the run the
pairs are those of the selection. -/
theorem updates_keep_identity_witness :
    uploadBatch secondFails threeFiles ∈ uploadBatchTrace secondFails threeFiles ∧
      (uploadBatch secondFails threeFiles).progress.map idName =
        [(0, "a.pdf"), (1, "b.pdf"), (2, "c.pdf")] :=
  ⟨by decide,
    ((updates_keep_identity secondFails threeFiles _ (by decide)).2.2.1).trans (by decide)⟩

/-- C19. Every request an invocation issues carries the department selected
when it started and, in its own Authorization header, `Bearer ` followed by
the token read when it started; the requests it issues are none, or one per
selected file. -/
theorem requests_share_department_and_credential (outcome : Nat → Outcome) (s : PageState)
    (token : String) (htok : s.token = some token) :
    (∀ r ∈ newRequests s (uploadBatch outcome s),
        r.department = s.dept ∧ r.authorization = "Bearer " ++ token) ∧
      (newRequests s (uploadBatch outcome s) = [] ∨
        newRequests s (uploadBatch outcome s) = s.files.map (mkRequest s.dept token)) := by
  have hnew : newRequests s (uploadBatch outcome s) =
      if s.files ≠ [] ∧ isFalsy s.token = false then
        s.files.map (mkRequest s.dept token)
      else [] := by
    rw [newRequests, uploadBatch_requests, List.drop_left, htok]
    rfl
  refine ⟨?_, ?_⟩
  · intro r hr
    rw [hnew] at hr
    split at hr
    · obtain ⟨file, -, rfl⟩ := List.mem_map.1 hr
      exact ⟨rfl, rfl⟩
    · simp at hr
  · rw [hnew]
    split
    · exact Or.inr rfl
    · exact Or.inl rfl

/-- C19, on three files with the department `Engineering` and the token
`tok`. -/
theorem requests_share_department_and_credential_witness :
    threeFiles.token = some "tok" ∧
      (newRequests threeFiles (uploadBatch secondFails threeFiles)).map
          (fun r => (r.department, r.authorization)) =
        [("Engineering", "Bearer tok"), ("Engineering", "Bearer tok"),
          ("Engineering", "Bearer tok")] ∧
      ∀ r ∈ newRequests threeFiles (uploadBatch secondFails threeFiles),
        r.department = threeFiles.dept ∧ r.authorization = "Bearer " ++ "tok" :=
  ⟨rfl, by decide,
    (requests_share_department_and_credential secondFails threeFiles "tok" rfl).1⟩

/-- C20. When an invocation starts with one record per selected file, then in
every state from the one in which `total` has been set (the second step of
the invocation, issued in the same synchronous segment as the first) to the
last, `total` is the number of selected files and the number of records; for
a non-empty selection this holds in the state the invocation returns. -/
theorem total_is_item_count (outcome : Nat → Outcome) (s : PageState)
    (hlen : s.progress.length = s.files.length) :
    (∀ t ∈ (uploadBatchTrace outcome s).drop 2,
        t.total = t.files.length ∧ t.total = t.progress.length) ∧
      (s.files ≠ [] →
        (uploadBatch outcome s).total = (uploadBatch outcome s).files.length ∧
          (uploadBatch outcome s).total = (uploadBatch outcome s).progress.length) := by
  obtain ⟨hall, hlast⟩ := trace_total outcome s
  have key : ∀ t ∈ (uploadBatchTrace outcome s).drop 2,
      t.total = t.files.length ∧ t.total = t.progress.length := by
    intro t ht
    obtain ⟨h1, h2, h3⟩ := hall t ht
    exact ⟨by rw [h1, h2], by rw [h1, h3, hlen]⟩
  exact ⟨key, fun hne => key _ (hlast hne)⟩

/-- C20, on three files whose second submission fails: `total` is 3 in every
state from the second step on. -/
theorem total_is_item_count_witness :
    threeFiles.progress.length = threeFiles.files.length ∧
      ((uploadBatchTrace secondFails threeFiles).drop 2).map (fun t => t.total) =
        List.replicate 15 3 ∧
      (uploadBatch secondFails threeFiles).total =
        (uploadBatch secondFails threeFiles).progress.length :=
  ⟨by decide, by decide,
    ((total_is_item_count secondFails threeFiles (by decide)).2 (by decide)).2⟩

/-! ## Reading, completion and reachable states -/

theorem acceptedCount_le (outcome : Nat → Outcome) (n : Nat) : acceptedCount outcome n ≤ n := by
  induction n with
  | zero => simp [acceptedCount]
  | succ n ih =>
    rw [acceptedCount_succ]
    split <;> omega

theorem acceptedCount_lt (outcome : Nat → Outcome) (n : Nat)
    (h : ∃ i, i < n ∧ (outcome i).isAccepted = false) : acceptedCount outcome n < n := by
  induction n with
  | zero =>
    obtain ⟨i, hi, -⟩ := h
    exact absurd hi (Nat.not_lt_zero i)
  | succ n ih =>
    obtain ⟨i, hi, hacc⟩ := h
    rw [acceptedCount_succ]
    by_cases hin : i = n
    · subst hin
      have := acceptedCount_le outcome i
      simp only [hacc]
      simp
      omega
    · have := ih ⟨i, by omega, hacc⟩
      split <;> omega

/-- Every step of an invocation leaves the selection alone. -/
theorem uploadBatchSteps_keep_files (outcome : Nat → Outcome) (s : PageState) :
    ∀ f ∈ uploadBatchSteps outcome s, ∀ t, (f t).files = t.files := by
  intro f hf t
  by_cases h0 : s.files.length = 0
  · simp only [uploadBatchSteps, h0, if_true, List.mem_singleton] at hf
    subst hf; rfl
  · by_cases htok : isFalsy s.token = true
    · simp only [uploadBatchSteps, h0, htok, if_true, if_false, List.cons_append,
        List.nil_append, List.mem_cons, List.mem_singleton, List.not_mem_nil, or_false] at hf
      rcases hf with rfl | rfl | rfl | rfl | rfl <;> rfl
    · have hne : s.files ≠ [] := fun h => h0 (by simp [h])
      rw [uploadBatchSteps_run outcome s hne (by simpa using htok)] at hf
      simp only [List.cons_append, List.nil_append, List.mem_cons, List.mem_append,
        List.mem_singleton, List.not_mem_nil, or_false] at hf
      rcases hf with rfl | rfl | rfl | hf | rfl
      · rfl
      · rfl
      · rfl
      · exact (loopSteps_frame _ _ _ outcome _ f hf t).1
      · rfl

/-- The selection is the same in every state of an invocation. -/
theorem trace_files (outcome : Nat → Outcome) (s t : PageState)
    (ht : t ∈ uploadBatchTrace outcome s) : t.files = s.files := by
  rcases List.mem_cons.1 ht with rfl | ht
  · rfl
  · exact (forall_traceSteps (fun u => u.files = s.files) _
      (fun f hf u hu => (uploadBatchSteps_keep_files outcome s f hf u).trans hu) s rfl).1 t ht

/-- The (id, name) pairs are the same in every state of an invocation. -/
theorem trace_idName (outcome : Nat → Outcome) (s t : PageState)
    (ht : t ∈ uploadBatchTrace outcome s) :
    t.progress.map idName = s.progress.map idName := by
  obtain ⟨k, h | h⟩ := (uploadBatchTrace_moves outcome s).2 t ht
  · rw [h, map_idName_progressAfter]
  · rw [h, map_idName_progressDuring]

theorem map_idName_initProgress (selectedFiles : List File) :
    (initProgress selectedFiles).map idName =
      selectedFiles.mapIdx (fun k file => (k, file.name)) := by
  apply List.ext_getElem?
  intro n
  simp only [initProgress, List.getElem?_map, List.getElem?_mapIdx, Option.map_map]
  rfl

/-- The selection made after a fully accepted run is reachable. -/
theorem reachable_staleSelection : Reachable staleSelection :=
  Reachable.select _ [fileA]
    (Reachable.upload threeFiles allAccepted _
      (Reachable.select _ _ (Reachable.mount (some "tok")) rfl) (by decide) (by decide)
      (by decide))
    (by decide)

/-- The records and the selection are aligned in every reachable state. -/
theorem reachable_aligned (s : PageState) (h : Reachable s) :
    s.progress.map idName = s.files.mapIdx (fun k file => (k, file.name)) := by
  induction h with
  | mount token => rfl
  | select s selectedFiles _ _ _ => exact map_idName_initProgress selectedFiles
  | upload s outcome t _ _ _ ht ih =>
    rw [trace_idName outcome s t ht, trace_files outcome s t ht]
    exact ih
  | reset s _ _ _ => rfl

/-- C21. Reading the progress is a pure read: a read leaves the state as it
was, and a second read made right after the first, with no step in between,
gives the same snapshot of `completed`, `total` and the progress records. -/
theorem read_is_pure (s : PageState) :
    (readProgress s).2 = s ∧
      (readProgress (readProgress s).2).1 = (readProgress s).1 ∧
      (readProgress (readProgress s).2).2 = s :=
  ⟨rfl, rfl, rfl⟩

/-- C22. In the state a run over a non-empty selection returns, with a
credential present, the completion condition (`completed > 0`, `completed`
equal to `total`, not `uploading`) is false when at least one submission was
not accepted, however many were, and true when all were accepted. -/
theorem completion_keyed_on_all_accepted (outcome : Nat → Outcome) (s : PageState)
    (hne : s.files ≠ []) (htok : isFalsy s.token = false) :
    ((∃ i, i < s.files.length ∧ (outcome i).isAccepted = false) →
        completionShown (uploadBatch outcome s) = false) ∧
      ((∀ i, i < s.files.length → (outcome i).isAccepted = true) →
        completionShown (uploadBatch outcome s) = true) := by
  obtain ⟨-, hc, -, hu, ht, -⟩ := uploadBatch_state outcome s hne htok
  have hpos : 0 < s.files.length := List.length_pos.2 hne
  refine ⟨fun h => ?_, fun h => ?_⟩
  · have hlt := acceptedCount_lt outcome _ h
    have : (uploadBatch outcome s).completed ≠ (uploadBatch outcome s).total := by
      rw [hc, ht]; omega
    simp [completionShown, this]
  · have heq := acceptedCount_all outcome _ h
    simp [completionShown, hc, ht, hu, heq, hpos]

/-- C22, on three files: with the second submission failed and two accepted
the condition is false; with all three accepted it is true. -/
theorem completion_keyed_on_all_accepted_witness :
    (threeFiles.files ≠ [] ∧ isFalsy threeFiles.token = false) ∧
      (uploadBatch secondFails threeFiles).completed = 2 ∧
      completionShown (uploadBatch secondFails threeFiles) = false ∧
      completionShown (uploadBatch allAccepted threeFiles) = true :=
  ⟨⟨by decide, by decide⟩, by decide,
    (completion_keyed_on_all_accepted secondFails threeFiles (by decide) (by decide)).1
      ⟨1, by decide, by decide⟩,
    (completion_keyed_on_all_accepted allAccepted threeFiles (by decide) (by decide)).2
      (fun _ _ => rfl)⟩

/-- C24. In every reachable state the progress list and the file list are
aligned: they have the same length and the record at index `k` has id `k`
and the name of the file at index `k`. -/
theorem progress_aligned_with_files (s : PageState) (h : Reachable s) :
    s.progress.length = s.files.length ∧
      ∀ (k : Nat) (p : ProgressItem), s.progress[k]? = some p →
        p.id = k ∧ (s.files[k]?).map (fun file => file.name) = some p.name := by
  have hal := reachable_aligned s h
  refine ⟨?_, fun k p hp => ?_⟩
  · have := congrArg List.length hal
    simpa using this
  · have hk := congrArg (fun l => l[k]?) hal
    simp only [List.getElem?_map, List.getElem?_mapIdx, hp, Option.map_some'] at hk
    cases hf : s.files[k]? with
    | none => rw [hf] at hk; simp at hk
    | some file =>
      rw [hf] at hk
      simp only [Option.map_some', Option.some.injEq, idName, Prod.mk.injEq] at hk
      exact ⟨hk.1, by simp [hk.2]⟩

/-- C24, in the state a first run over three files leaves. -/
theorem progress_aligned_with_files_witness :
    Reachable afterFirstRun ∧
      afterFirstRun.progress.length = afterFirstRun.files.length ∧
      afterFirstRun.progress.map idName = [(0, "a.pdf"), (1, "b.pdf"), (2, "c.pdf")] :=
  ⟨reachable_afterFirstRun,
    (progress_aligned_with_files afterFirstRun reachable_afterFirstRun).1, by decide⟩

/-- C25, evaluated on the code.  The state reached by selecting one file after
a run over three files that were all accepted is reachable; the completion
condition holds in it (`completed` and `total` are still 3, `uploading` is
false), yet its only record is pending and the number of records is 1. -/
theorem completion_shown_over_pending_selection :
    Reachable staleSelection ∧
      completionShown staleSelection = true ∧
      staleSelection.progress.map (fun p => p.status) = [Status.pending] ∧
      staleSelection.progress.length = 1 ∧
      staleSelection.completed = 3 :=
  ⟨reachable_staleSelection, by decide, by decide, by decide, by decide⟩

/-! ## The state in which a submission is issued -/

theorem submissionStep_of_same_requests (files : List File) (dept token : String) (base : Nat)
    (t u : PageState) (h : u.requests = t.requests) : SubmissionStep files dept token base t u :=
  fun hne => absurd h hne

/-- One iteration, from a state whose log holds `base + k` requests. -/
theorem loopBody_submission (files : List File) (dept token : String)
    (outcome : Nat → Outcome) (base k : Nat) (hk : k < files.length) (t : PageState)
    (ht : t.requests.length = base + k) :
    List.Chain (SubmissionStep files dept token base) t
      (traceSteps (loopBody files dept token outcome k) t) := by
  rw [loopBody_eq files dept token outcome k hk]
  have hpost : SubmissionStep files dept token base
      (setProgress (markItem k .processing "Uploading...") t)
      (post (mkRequest dept token files[k])
        (setProgress (markItem k .processing "Uploading...") t)) := by
    intro _
    refine ⟨k, files[k], List.getElem?_eq_getElem hk, ht, rfl, ?_⟩
    intro q hq
    have hq2 : (markItem k Status.processing "Uploading..." t.progress)[k]? = some q := hq
    simp only [markItem, List.getElem?_mapIdx, Option.map_eq_some', if_true] at hq2
    obtain ⟨q0, -, rfl⟩ := hq2
    exact ⟨rfl, rfl⟩
  cases ho : outcome k <;>
    simp only [afterAwait, traceSteps, List.chain_cons, List.Chain.nil, and_true] <;>
    exact ⟨submissionStep_of_same_requests _ _ _ _ _ _ rfl, hpost,
      submissionStep_of_same_requests _ _ _ _ _ _ rfl,
      submissionStep_of_same_requests _ _ _ _ _ _ rfl⟩

/-- The first `k` iterations. -/
theorem loopSteps_submission (files : List File) (dept token : String)
    (outcome : Nat → Outcome) (s : PageState) (k : Nat) (hk : k ≤ files.length) :
    List.Chain (SubmissionStep files dept token s.requests.length) s
      (traceSteps (loopSteps files dept token outcome k) s) := by
  induction k with
  | zero => simp [loopSteps_zero, traceSteps]
  | succ k ih =>
    rw [loopSteps_succ, chain_traceSteps_append]
    refine ⟨ih (by omega), ?_⟩
    apply loopBody_submission files dept token outcome _ k (by omega)
    rw [(loop_state files dept token outcome s k (by omega)).2.2]
    simp
    omega

/-- C23 fails on the code: in the run over three files, in the state right
before the first request is issued, the first record is processing and its
message is `Uploading...`, not `submitting`. -/
theorem message_before_submission_is_uploading :
    (runSteps ((uploadBatchSteps secondFails threeFiles).take 5) threeFiles).requests ≠
        (runSteps ((uploadBatchSteps secondFails threeFiles).take 4) threeFiles).requests ∧
      statusAt (runSteps ((uploadBatchSteps secondFails threeFiles).take 4) threeFiles) 0 =
        some Status.processing ∧
      messageAt (runSteps ((uploadBatchSteps secondFails threeFiles).take 4) threeFiles) 0 =
        some "Uploading..." ∧
      messageAt (runSteps ((uploadBatchSteps secondFails threeFiles).take 4) threeFiles) 0 ≠
        some "submitting" := by
  decide

/-- C23 as amended: between any two successive states of an invocation, if a
request is issued then it is the request for the file at some index `i`, it
is request number `i` of the invocation, and in the state right before it
the record at index `i` has status processing and message `Uploading...`. -/
theorem processing_before_submission (outcome : Nat → Outcome) (s : PageState) :
    List.Chain' (SubmissionStep s.files s.dept (s.token.getD "") s.requests.length)
      (uploadBatchTrace outcome s) := by
  show List.Chain _ s _
  by_cases h0 : s.files.length = 0
  · apply chain_traceSteps_of_forall
    intro f hf t
    simp only [uploadBatchSteps, h0, if_true, List.mem_singleton] at hf
    subst hf
    exact submissionStep_of_same_requests _ _ _ _ _ _ rfl
  · by_cases htok : isFalsy s.token = true
    · apply chain_traceSteps_of_forall
      intro f hf t
      simp only [uploadBatchSteps, h0, htok, if_true, if_false, List.cons_append,
        List.nil_append, List.mem_cons, List.mem_singleton, List.not_mem_nil, or_false] at hf
      rcases hf with rfl | rfl | rfl | rfl | rfl <;>
        exact submissionStep_of_same_requests _ _ _ _ _ _ rfl
    · have hne : s.files ≠ [] := fun h => h0 (by simp [h])
      rw [uploadBatchSteps_run outcome s hne (by simpa using htok), chain_traceSteps_append,
        chain_traceSteps_append]
      refine ⟨?_, ?_, ?_⟩
      · apply chain_traceSteps_of_forall
        intro f hf t
        simp only [List.mem_cons, List.mem_singleton, List.not_mem_nil, or_false] at hf
        rcases hf with rfl | rfl | rfl <;>
          exact submissionStep_of_same_requests _ _ _ _ _ _ rfl
      · exact loopSteps_submission s.files s.dept (s.token.getD "") outcome
          (runSteps [setUploading true, setTotal s.files.length, setCompleted fun _ => 0] s)
          _ (le_refl _)
      · apply chain_traceSteps_of_forall
        intro f hf t
        simp only [List.mem_singleton] at hf
        subst hf
        exact submissionStep_of_same_requests _ _ _ _ _ _ rfl

/-- C23 as amended, on three files: the states right before the three
requests show the record being submitted with the message `Uploading...`. -/
theorem processing_before_submission_witness :
    List.Chain' (SubmissionStep threeFiles.files threeFiles.dept "tok" 0)
        (uploadBatchTrace secondFails threeFiles) ∧
      ((uploadBatchTrace secondFails threeFiles).map (fun t => messageAt t 1)).dedup =
        [some "", some "Uploading...", some "Failed: Network Error"] :=
  ⟨processing_before_submission secondFails threeFiles, by decide⟩

end BatchUpload

namespace SearchPage

open BatchUpload (AxiosError isFalsy jsOr)

/-! ## `handleSearch` -/

theorem runSteps_afterGet (outcome : GetOutcome) (t : SearchState) :
    (runSteps (afterGet outcome) t).requests = t.requests ∧
      (runSteps (afterGet outcome) t).loading = t.loading := by
  cases outcome with
  | resolved data =>
    cases data with
    | none => exact ⟨rfl, rfl⟩
    | some d => exact ⟨rfl, rfl⟩
  | rejected e => exact ⟨rfl, rfl⟩

theorem searchSteps_append (a b : List Step) (s : SearchState) :
    runSteps (a ++ b) s = runSteps b (runSteps a s) := by
  simp [runSteps, List.foldl_append]

/-- C26, evaluated on the code.  With a query of at least three characters and
no stored token, `handleSearch` returns with `loading` true, where it was
false before; on the three other paths (query too short, request succeeded,
request failed) it returns with `loading` false. -/
theorem loading_stuck_without_token :
    (typed "metro safety" none).loading = false ∧
      queryTooShort "metro safety" = false ∧
      (handleSearch oneResult (typed "metro safety" none)).loading = true ∧
      (handleSearch oneResult (typed "metro safety" none)).requests = [] ∧
      (handleSearch oneResult (typed "ab" (some "tok"))).loading = false ∧
      (handleSearch oneResult (typed "metro safety" (some "tok"))).loading = false ∧
      (handleSearch networkError (typed "metro safety" (some "tok"))).loading = false := by
  decide

/-- C27. When the query is empty or its trimmed length is less than 3,
`handleSearch` issues no request and leaves `results`, `totalResults` and
`loading` as they were; when the trimmed length is at least 3 and a
credential is present, it issues exactly one request, for that query and
with that credential. -/
theorem short_query_issues_no_request (outcome : GetOutcome) (s : SearchState) :
    (queryTooShort s.query = true ↔ (s.query = "" ∨ jsLength (jsTrim s.query) < 3)) ∧
      (queryTooShort s.query = true →
        (handleSearch outcome s).requests = s.requests ∧
          (handleSearch outcome s).results = s.results ∧
          (handleSearch outcome s).totalResults = s.totalResults ∧
          (handleSearch outcome s).loading = s.loading) ∧
      (queryTooShort s.query = false → isFalsy s.token = false →
        (handleSearch outcome s).requests =
          s.requests ++ [mkGet s.query (s.token.getD "")]) := by
  refine ⟨?_, ?_, ?_⟩
  · simp [queryTooShort]
  · intro h
    simp only [handleSearch, handleSearchSteps, h, if_true]
    exact ⟨rfl, rfl, rfl, rfl⟩
  · intro h htok
    have hsteps : handleSearchSteps outcome s =
        [setLoading true, get (mkGet s.query (s.token.getD ""))] ++
          (afterGet outcome ++ [setLoading false]) := by
      simp [handleSearchSteps, h, htok]
    rw [handleSearch, hsteps, searchSteps_append, searchSteps_append]
    show (runSteps (afterGet outcome) _).requests = _
    rw [(runSteps_afterGet outcome _).1]
    rfl

/-- C27, on a query of one letter between blanks and on a query of two
words. -/
theorem short_query_issues_no_request_witness :
    (queryTooShort (typed "  a " (some "tok")).query = true ∧
        queryTooShort (typed "metro safety" (some "tok")).query = false ∧
        isFalsy (typed "metro safety" (some "tok")).token = false) ∧
      (handleSearch oneResult (typed "  a " (some "tok"))).requests = [] ∧
      (handleSearch oneResult (typed "metro safety" (some "tok"))).requests =
        [mkGet "metro safety" "tok"] :=
  ⟨⟨by decide, by decide, by decide⟩,
    ((short_query_issues_no_request oneResult (typed "  a " (some "tok"))).2.1
      (by decide)).1,
    (short_query_issues_no_request oneResult (typed "metro safety" (some "tok"))).2.2
      (by decide) (by decide)⟩

end SearchPage

namespace Alerts

open BatchUpload (jsOr)

/-! ## Parsing the alerts -/

/-- C28, evaluated on the code.  For three documents, one with an alert, one
without the field and one whose `semantic_alerts` is not JSON, the filter
keeps the first only and the alerts section is computed, but the document
table throws the `SyntaxError` of the parse of line 139, so the render of the
dashboard fails. -/
theorem dashboard_table_throws_on_malformed :
    sampleParse "[oops" = none ∧
      alertDocs sampleParse [docWithAlert, docWithoutField, docMalformed] = [docWithAlert] ∧
      alertsSection sampleParse [docWithAlert, docWithoutField, docMalformed] =
        Except.ok [("incident.pdf", [{ label := "Safety Violation" }])] ∧
      documentTable sampleParse
          { docs := [docWithAlert, docWithoutField, docMalformed], loading := false } =
        Except.error JsError.syntaxError ∧
      renderDashboard sampleParse
          { docs := [docWithAlert, docWithoutField, docMalformed], loading := false } =
        Except.error JsError.syntaxError :=
  ⟨by decide, by decide, rfl, rfl, rfl⟩

/-- C29, evaluated on the code.  On an absent value, an empty text and a
malformed text `parseAlerts` returns the empty list, and on a text that
encodes a list it returns that list; but on the JSON text `null` it returns
`null`, which is not a list, and the test `alerts.length > 0` the pages make
on its result throws a `TypeError`.  The filter of the dashboard, which takes
the length inside its try, survives the same document. -/
theorem parseAlerts_returns_null :
    parseAlerts sampleParse none = JsonValue.list [] ∧
      parseAlerts sampleParse (some "") = JsonValue.list [] ∧
      parseAlerts sampleParse (some "[oops") = JsonValue.list [] ∧
      parseAlerts sampleParse docWithAlert.semantic_alerts =
        JsonValue.list [{ label := "Safety Violation" }] ∧
      sampleParse "null" = some JsonValue.null ∧
      parseAlerts sampleParse docNull.semantic_alerts = JsonValue.null ∧
      lengthOf (parseAlerts sampleParse docNull.semantic_alerts) =
        Except.error JsError.typeError ∧
      alertsBadge sampleParse docNull = Except.error JsError.typeError ∧
      alertsBadge sampleParse docMalformed = Except.ok false ∧
      hasAlerts sampleParse docNull = false :=
  ⟨by decide, by decide, by decide, by decide, by decide, by decide, rfl, rfl, rfl,
    by decide⟩

end Alerts
